import Mathlib

/-!
Verification of the ReaLHF pipeline-parallel execution engine and its dataflow
coordinator, shallowly embedded from the Python source:

* impl/model/backend/pipe_engine/ds_pipe_engine.py (DeepSpeedPipelineEngine)
* impl/model/nn/flash_mqat.py (genstep, GenerationConfig)
* system/model_worker.py (ModelWorker)
* impl/model/interface/flash/sft_flash_interface.py (PackedSupervisedFinetuningInterface)

Machine integers of the source are embedded as Nat / Int, tensors irrelevant to the
verified claims are opaque tokens, and float quantities appear as rationals or are
abstracted into explicit function parameters.
-/

/-! ## Pipeline instructions and the `_exec_schedule` loop -/

/-- Instruction variants of the pipeline schedule, as listed in
DeepSpeedPipelineEngine._INSTRUCTION_MAP (ds_pipe_engine.py lines 1043-1055). -/
inductive Instr where
  | OptimizerStep
  | ReduceGrads
  | ForwardPass
  | BackwardPass
  | SendActivation
  | RecvActivation
  | SendGrad
  | RecvGrad
  | SendNextTokens
  | RecvNextTokens
  | EndSchedule
deriving DecidableEq, Repr

/-- One step of a pipeline schedule: the (step_id, micro_batch_id, instruction list)
tuple yielded by a schedule generator. -/
structure SchedStep where
  step_id : Nat
  mb_id : Nat
  cmds : List Instr
deriving DecidableEq, Repr

/-- The burn-out step budget chosen at the top of `_exec_schedule`
(ds_pipe_engine.py lines 1067-1072): `num_stages - 1` on the last stage, `0` on
stage `num_stages - 2`, `1` on every other stage. -/
def initBurnOutSteps (numStages stageId : Nat) : Nat :=
  if stageId = numStages - 1 then numStages - 1
  else if stageId = numStages - 2 then 0
  else 1

/-- Whether a command is executed (not skipped) in the body of `_exec_schedule`
(ds_pipe_engine.py lines 1085-1092): once `will_break` is set, the last stage skips
everything except RecvActivation but only while `burn_out_steps < num_stages - 1`,
and a non-last stage skips everything except SendActivation. -/
def cmdExecuted (numStages stageId burnOutSteps : Nat) (willBreak : Bool) (cmd : Instr) :
    Bool :=
  if willBreak then
    if stageId = numStages - 1 then
      if burnOutSteps < numStages - 1 ∧ cmd ≠ Instr.RecvActivation then false else true
    else
      if cmd = Instr.SendActivation then true else false
  else true

/-- Result of running `_exec_schedule`: the final `step_count`, whether the loop was
exited by the burn-out `break` (rather than schedule exhaustion), and the log of the
commands actually executed, each tagged with the value of `step_count` at the time it
ran. -/
structure ExecResult where
  stepCount : Nat
  broke : Bool
  log : List (Nat × Instr)
deriving DecidableEq, Repr

/-- The loop of `_exec_schedule` (ds_pipe_engine.py lines 1073-1119). Per schedule
step: execute the non-skipped commands, increment `step_count`, decrement
`burn_out_steps` when `will_break` is already set, latch `will_break` when the
terminate condition (abstracted as a Boolean function of the post-increment
`step_count`) returns true, and break once `will_break` holds with
`burn_out_steps ≤ 0`. -/
def execScheduleAux (numStages stageId : Nat) (tc : Option (Nat → Bool)) :
    List SchedStep → Nat → Bool → Nat → ExecResult
  | [], stepCount, _, _ => ⟨stepCount, false, []⟩
  | s :: rest, stepCount, willBreak, burnOutSteps =>
    let executed := s.cmds.filter (cmdExecuted numStages stageId burnOutSteps willBreak)
    let log0 := executed.map (fun c => (stepCount, c))
    let stepCount' := stepCount + 1
    let burn' := if willBreak then burnOutSteps - 1 else burnOutSteps
    let willBreak' := willBreak || (match tc with | none => false | some f => f stepCount')
    if willBreak' ∧ burn' = 0 then
      ⟨stepCount', true, log0⟩
    else
      let r := execScheduleAux numStages stageId tc rest stepCount' willBreak' burn'
      ⟨r.stepCount, r.broke, log0 ++ r.log⟩

/-- Entry point of `_exec_schedule`: `step_count` starts at 0, `will_break` is off and
the burn-out budget is `initBurnOutSteps`. -/
def execSchedule (numStages stageId : Nat) (tc : Option (Nat → Bool))
    (sched : List SchedStep) : ExecResult :=
  execScheduleAux numStages stageId tc sched 0 false (initBurnOutSteps numStages stageId)

/-- Modelled from the spec: the last-stage slice of `GenerateSchedule`
(impl/model/backend/pipe_engine/static_schedule.py is not included under src/).
Spec section 4.3: for each token index t in [0, max_new_tokens) the last stage
receives the activation of each micro-batch, runs a ForwardPass that samples via
genstep, and sends the sampled tokens back to the first stage. -/
def generateScheduleLastStage (n_mb max_new_tokens : Nat) : List SchedStep :=
  (List.range max_new_tokens).flatMap (fun t =>
    (List.range n_mb).map (fun m =>
      ⟨t * n_mb + m, m, [Instr.RecvActivation, Instr.ForwardPass, Instr.SendNextTokens]⟩))

lemma execScheduleAux_nil (numStages stageId : Nat) (tc : Option (Nat → Bool))
    (stepCount : Nat) (willBreak : Bool) (burn : Nat) :
    execScheduleAux numStages stageId tc [] stepCount willBreak burn
      = ⟨stepCount, false, []⟩ := rfl

lemma execScheduleAux_cons_true (numStages stageId : Nat) (tc : Option (Nat → Bool))
    (s : SchedStep) (rest : List SchedStep) (stepCount burn : Nat) :
    execScheduleAux numStages stageId tc (s :: rest) stepCount true burn =
      (if burn - 1 = 0 then
        ⟨stepCount + 1, true,
          (s.cmds.filter (cmdExecuted numStages stageId burn true)).map
            (fun c => (stepCount, c))⟩
      else
        ⟨(execScheduleAux numStages stageId tc rest (stepCount + 1) true (burn - 1)).stepCount,
          (execScheduleAux numStages stageId tc rest (stepCount + 1) true (burn - 1)).broke,
          (s.cmds.filter (cmdExecuted numStages stageId burn true)).map
              (fun c => (stepCount, c)) ++
            (execScheduleAux numStages stageId tc rest (stepCount + 1) true (burn - 1)).log⟩) := by
  simp [execScheduleAux]

lemma execScheduleAux_cons_false (numStages stageId : Nat) (f : Nat → Bool)
    (s : SchedStep) (rest : List SchedStep) (stepCount burn : Nat) :
    execScheduleAux numStages stageId (some f) (s :: rest) stepCount false burn =
      (if f (stepCount + 1) ∧ burn = 0 then
        ⟨stepCount + 1, true,
          (s.cmds.filter (cmdExecuted numStages stageId burn false)).map
            (fun c => (stepCount, c))⟩
      else
        ⟨(execScheduleAux numStages stageId (some f) rest (stepCount + 1)
            (f (stepCount + 1)) burn).stepCount,
          (execScheduleAux numStages stageId (some f) rest (stepCount + 1)
            (f (stepCount + 1)) burn).broke,
          (s.cmds.filter (cmdExecuted numStages stageId burn false)).map
              (fun c => (stepCount, c)) ++
            (execScheduleAux numStages stageId (some f) rest (stepCount + 1)
              (f (stepCount + 1)) burn).log⟩) := by
  simp [execScheduleAux]

lemma execScheduleAux_burn_down (numStages stageId : Nat) (tc : Option (Nat → Bool)) :
    ∀ (sched : List SchedStep) (stepCount burn : Nat), 1 ≤ burn → burn ≤ sched.length →
      (execScheduleAux numStages stageId tc sched stepCount true burn).broke = true ∧
      (execScheduleAux numStages stageId tc sched stepCount true burn).stepCount
        = stepCount + burn := by
  intro sched
  induction sched with
  | nil =>
    intro stepCount burn h1 h2
    simp only [List.length_nil] at h2
    omega
  | cons s rest ih =>
    intro stepCount burn h1 h2
    rw [execScheduleAux_cons_true]
    by_cases hb : burn - 1 = 0
    · have hb1 : burn = 1 := by omega
      subst hb1
      simp
    · rw [if_neg hb]
      have h1' : 1 ≤ burn - 1 := by omega
      have h2' : burn - 1 ≤ rest.length := by
        simp only [List.length_cons] at h2; omega
      have hrec := ih (stepCount + 1) (burn - 1) h1' h2'
      refine ⟨hrec.1, ?_⟩
      have := hrec.2
      simp only []
      omega

lemma execScheduleAux_pre_phase (numStages stageId k : Nat) (f : Nat → Bool)
    (hfk : f k = true) (hfj : ∀ j, 1 ≤ j → j < k → f j = false) (binit : Nat) :
    ∀ (sched : List SchedStep) (stepCount : Nat), stepCount < k →
      k - stepCount + binit ≤ sched.length →
      (execScheduleAux numStages stageId (some f) sched stepCount false binit).broke = true ∧
      (execScheduleAux numStages stageId (some f) sched stepCount false binit).stepCount
        = k + binit := by
  intro sched
  induction sched with
  | nil =>
    intro sc h1 h2
    simp only [List.length_nil] at h2
    omega
  | cons s rest ih =>
    intro sc h1 h2
    rw [execScheduleAux_cons_false]
    by_cases hk : sc + 1 = k
    · subst hk
      rw [hfk]
      by_cases hb : binit = 0
      · subst hb
        rw [if_pos (by simp)]
        simp
      · rw [if_neg (by simp [hb])]
        have hrec := execScheduleAux_burn_down numStages stageId (some f) rest (sc + 1)
          binit (by omega) (by simp only [List.length_cons] at h2; omega)
        refine ⟨hrec.1, ?_⟩
        show (execScheduleAux numStages stageId (some f) rest (sc + 1) true binit).stepCount
          = sc + 1 + binit
        exact hrec.2
    · have hlt : sc + 1 < k := by omega
      rw [hfj (sc + 1) (by omega) hlt]
      rw [if_neg (by simp)]
      have hrec := ih (sc + 1) hlt
        (by simp only [List.length_cons] at h2; omega)
      exact ⟨hrec.1, hrec.2⟩

/-- Claim C1: in `_exec_schedule` with a terminate condition (generate mode), once the
terminate condition first returns true (at the k-th executed step), the engine keeps
iterating for a residual number of burn-out steps — `num_stages - 1` on the last
stage, `0` on stage `num_stages - 2`, `1` on every other stage — and then breaks out
of the schedule loop, provided the schedule has that many steps left. -/
theorem exec_schedule_burn_out_counts (numStages stageId k : Nat) (f : Nat → Bool)
    (sched : List SchedStep)
    (hk : 1 ≤ k) (hfk : f k = true) (hfj : ∀ j, 1 ≤ j → j < k → f j = false)
    (hlen : k + initBurnOutSteps numStages stageId ≤ sched.length) :
    (execSchedule numStages stageId (some f) sched).broke = true ∧
    (execSchedule numStages stageId (some f) sched).stepCount =
      k + (if stageId = numStages - 1 then numStages - 1
           else if stageId = numStages - 2 then 0 else 1) := by
  have hrec := execScheduleAux_pre_phase numStages stageId k f hfk hfj
    (initBurnOutSteps numStages stageId) sched 0 (by omega) (by omega)
  exact ⟨hrec.1, by rw [show (execSchedule numStages stageId (some f) sched).stepCount
    = (execScheduleAux numStages stageId (some f) sched 0 false
        (initBurnOutSteps numStages stageId)).stepCount from rfl, hrec.2, initBurnOutSteps]⟩

/-- Witness for claim C1: a concrete last-stage run (4 stages, spec-modelled generate
schedule of 5 token steps, terminate condition firing at step 1) breaks after
1 + 3 steps. -/
theorem exec_schedule_burn_out_counts_witness :
    (execSchedule 4 3 (some fun j => decide (1 ≤ j)) (generateScheduleLastStage 1 5)).broke
      = true ∧
    (execSchedule 4 3 (some fun j => decide (1 ≤ j))
        (generateScheduleLastStage 1 5)).stepCount
      = 1 + (if 3 = 4 - 1 then 4 - 1 else if 3 = 4 - 2 then 0 else 1) :=
  exec_schedule_burn_out_counts 4 3 1 _ _ (by decide) (by decide)
    (fun j h1 h2 => absurd (h1.trans_lt h2) (lt_irrefl 1)) (by decide)

lemma cmdExecuted_true_nonlast (numStages stageId burn : Nat) (c : Instr)
    (hstage : stageId ≠ numStages - 1)
    (h : cmdExecuted numStages stageId burn true c = true) : c = Instr.SendActivation := by
  simp only [cmdExecuted, if_true, if_neg hstage] at h
  by_cases hc : c = Instr.SendActivation
  · exact hc
  · rw [if_neg hc] at h
    exact absurd h (by simp)

lemma cmdExecuted_true_last_small (numStages burn : Nat) (c : Instr)
    (hburn : burn < numStages - 1)
    (h : cmdExecuted numStages (numStages - 1) burn true c = true) :
    c = Instr.RecvActivation := by
  simp only [cmdExecuted, if_true, if_pos rfl] at h
  by_cases hc : c = Instr.RecvActivation
  · exact hc
  · rw [if_pos ⟨hburn, hc⟩] at h
    exact absurd h (by simp)

lemma execScheduleAux_burn_log_send (numStages stageId : Nat) (tc : Option (Nat → Bool))
    (hstage : stageId ≠ numStages - 1) :
    ∀ (sched : List SchedStep) (stepCount burn : Nat),
      ∀ e ∈ (execScheduleAux numStages stageId tc sched stepCount true burn).log,
        e.2 = Instr.SendActivation := by
  intro sched
  induction sched with
  | nil =>
    intro sc burn e he
    rw [execScheduleAux_nil] at he
    simp at he
  | cons s rest ih =>
    intro sc burn e he
    rw [execScheduleAux_cons_true] at he
    by_cases hb : burn - 1 = 0
    · rw [if_pos hb] at he
      simp only [List.mem_map, List.mem_filter] at he
      obtain ⟨c, ⟨_, hp⟩, rfl⟩ := he
      exact cmdExecuted_true_nonlast numStages stageId burn c hstage hp
    · rw [if_neg hb] at he
      rcases List.mem_append.mp he with h' | h'
      · simp only [List.mem_map, List.mem_filter] at h'
        obtain ⟨c, ⟨_, hp⟩, rfl⟩ := h'
        exact cmdExecuted_true_nonlast numStages stageId burn c hstage hp
      · exact ih (sc + 1) (burn - 1) e h'

lemma execScheduleAux_burn_log_recv (numStages : Nat) (tc : Option (Nat → Bool)) :
    ∀ (sched : List SchedStep) (stepCount burn : Nat), burn < numStages - 1 →
      ∀ e ∈ (execScheduleAux numStages (numStages - 1) tc sched stepCount true burn).log,
        e.2 = Instr.RecvActivation := by
  intro sched
  induction sched with
  | nil =>
    intro sc burn hburn e he
    rw [execScheduleAux_nil] at he
    simp at he
  | cons s rest ih =>
    intro sc burn hburn e he
    rw [execScheduleAux_cons_true] at he
    by_cases hb : burn - 1 = 0
    · rw [if_pos hb] at he
      simp only [List.mem_map, List.mem_filter] at he
      obtain ⟨c, ⟨_, hp⟩, rfl⟩ := he
      exact cmdExecuted_true_last_small numStages burn c hburn hp
    · rw [if_neg hb] at he
      rcases List.mem_append.mp he with h' | h'
      · simp only [List.mem_map, List.mem_filter] at h'
        obtain ⟨c, ⟨_, hp⟩, rfl⟩ := h'
        exact cmdExecuted_true_last_small numStages burn c hburn hp
      · exact ih (sc + 1) (burn - 1) (by omega) e h'

lemma execScheduleAux_burn_log_tail (numStages : Nat) (tc : Option (Nat → Bool))
    (sched : List SchedStep) (stepCount burn : Nat) (hburn : burn ≤ numStages - 1) :
    ∀ e ∈ (execScheduleAux numStages (numStages - 1) tc sched stepCount true burn).log,
      stepCount + 1 ≤ e.1 → e.2 = Instr.RecvActivation := by
  cases sched with
  | nil =>
    intro e he
    rw [execScheduleAux_nil] at he
    simp at he
  | cons s rest =>
    intro e he hge
    rw [execScheduleAux_cons_true] at he
    by_cases hb : burn - 1 = 0
    · rw [if_pos hb] at he
      simp only [List.mem_map, List.mem_filter] at he
      obtain ⟨c, _, rfl⟩ := he
      omega
    · rw [if_neg hb] at he
      rcases List.mem_append.mp he with h' | h'
      · simp only [List.mem_map, List.mem_filter] at h'
        obtain ⟨c, _, rfl⟩ := h'
        omega
      · exact execScheduleAux_burn_log_recv numStages tc rest (stepCount + 1) (burn - 1)
          (by omega) e h'

lemma execScheduleAux_pre_phase_log (numStages stageId k : Nat) (f : Nat → Bool)
    (hfk : f k = true) (hfj : ∀ j, 1 ≤ j → j < k → f j = false) (binit : Nat)
    (P : Nat × Instr → Prop)
    (hpre : ∀ s c, s < k → P (s, c))
    (hburn : ∀ (sched' : List SchedStep) (e : Nat × Instr),
      e ∈ (execScheduleAux numStages stageId (some f) sched' k true binit).log → P e) :
    ∀ (sched : List SchedStep) (stepCount : Nat), stepCount < k →
      ∀ e ∈ (execScheduleAux numStages stageId (some f) sched stepCount false binit).log,
        P e := by
  intro sched
  induction sched with
  | nil =>
    intro sc h1 e he
    rw [execScheduleAux_nil] at he
    simp at he
  | cons s rest ih =>
    intro sc h1 e he
    rw [execScheduleAux_cons_false] at he
    by_cases hk : sc + 1 = k
    · subst hk
      rw [hfk] at he
      by_cases hb : binit = 0
      · subst hb
        rw [if_pos (by simp)] at he
        simp only [List.mem_map, List.mem_filter] at he
        obtain ⟨c, _, rfl⟩ := he
        exact hpre sc c (by omega)
      · rw [if_neg (by simp [hb])] at he
        rcases List.mem_append.mp he with h' | h'
        · simp only [List.mem_map, List.mem_filter] at h'
          obtain ⟨c, _, rfl⟩ := h'
          exact hpre sc c (by omega)
        · exact hburn rest e h'
    · have hlt : sc + 1 < k := by omega
      rw [hfj (sc + 1) (by omega) hlt] at he
      rw [if_neg (by simp)] at he
      rcases List.mem_append.mp he with h' | h'
      · simp only [List.mem_map, List.mem_filter] at h'
        obtain ⟨c, _, rfl⟩ := h'
        exact hpre sc c (by omega)
      · exact ih (sc + 1) hlt e h'

/-- Claim C2 (amended): once the terminate condition first returns true (at the k-th
executed step), a non-last stage executes only SendActivation instructions during the
burn-out steps, and the last stage executes only RecvActivation instructions from the
second burn-out step onward; on the first burn-out step (step_count k) the last stage
executes every scheduled instruction, because the skip test
`burn_out_steps < num_stages - 1` is still false there. -/
theorem exec_schedule_burn_out_only_send_recv (numStages stageId k : Nat)
    (f : Nat → Bool) (sched : List SchedStep)
    (hk : 1 ≤ k) (hfk : f k = true) (hfj : ∀ j, 1 ≤ j → j < k → f j = false) :
    ∀ e ∈ (execSchedule numStages stageId (some f) sched).log,
      (stageId ≠ numStages - 1 → k ≤ e.1 → e.2 = Instr.SendActivation) ∧
      (stageId = numStages - 1 → k + 1 ≤ e.1 → e.2 = Instr.RecvActivation) := by
  intro e he
  refine execScheduleAux_pre_phase_log numStages stageId k f hfk hfj
    (initBurnOutSteps numStages stageId)
    (fun e => (stageId ≠ numStages - 1 → k ≤ e.1 → e.2 = Instr.SendActivation) ∧
      (stageId = numStages - 1 → k + 1 ≤ e.1 → e.2 = Instr.RecvActivation))
    (fun s c hs => ⟨fun _ hge => absurd (lt_of_lt_of_le hs hge) (lt_irrefl s),
      fun _ hge => absurd (lt_of_lt_of_le hs (by omega)) (lt_irrefl s)⟩)
    ?_ sched 0 (by omega) e he
  intro sched' e' he'
  by_cases hstage : stageId = numStages - 1
  · subst hstage
    refine ⟨fun hne => absurd rfl hne, fun _ hge => ?_⟩
    have hbinit : initBurnOutSteps numStages (numStages - 1) = numStages - 1 := by
      simp [initBurnOutSteps]
    rw [hbinit] at he'
    exact execScheduleAux_burn_log_tail numStages (some f) sched' k (numStages - 1)
      (le_refl _) e' he' hge
  · refine ⟨fun _ _ => ?_, fun hst => absurd hst hstage⟩
    exact execScheduleAux_burn_log_send numStages stageId (some f) hstage sched' k
      (initBurnOutSteps numStages stageId) e' he'

/-- Counterexample for claim C2 as stated: in a 4-stage run where the terminate
condition first returns true at step k = 1 (all micro-batches hit EOS on the first
token), the last stage executes a ForwardPass during burn-out — at the first burn-out
step (step_count 1) every instruction of the spec-modelled generate schedule runs,
because `burn_out_steps < num_stages - 1` does not hold yet. -/
theorem exec_schedule_burn_out_forward_pass_counterexample :
    (1, Instr.ForwardPass) ∈
        (execSchedule 4 3 (some fun j => decide (1 ≤ j))
          (generateScheduleLastStage 1 5)).log ∧
      1 ≤ (1, Instr.ForwardPass).1 ∧
      (1, Instr.ForwardPass).2 ≠ Instr.RecvActivation := by
  decide

/-- Witness for claim C2 (amended): the burn-out filter property instantiated on the
concrete last-stage run of the counterexample scenario, at the executed log entry
(step_count 2, RecvActivation) of the second burn-out step. -/
theorem exec_schedule_burn_out_only_send_recv_witness :
    ((3 : Nat) ≠ 4 - 1 → 1 ≤ (2, Instr.RecvActivation).1 →
      (2, Instr.RecvActivation).2 = Instr.SendActivation) ∧
    ((3 : Nat) = 4 - 1 → 1 + 1 ≤ (2, Instr.RecvActivation).1 →
      (2, Instr.RecvActivation).2 = Instr.RecvActivation) :=
  exec_schedule_burn_out_only_send_recv 4 3 1 (fun j => decide (1 ≤ j))
    (generateScheduleLastStage 1 5) (by decide) (by decide)
    (fun j h1 h2 => absurd (h1.trans_lt h2) (lt_irrefl 1))
    (2, Instr.RecvActivation) (by decide)

/-! ## The tensor buffer and the engine phase functions -/

/-- Abstract value stored in the engine tensor buffer. Payloads that the verified
claims do not inspect (tensors, handles, metadata records, python lists) are opaque
tokens carrying a descriptive name. -/
inductive TBVal where
  | bool (b : Bool)
  | nat (n : Nat)
  | obj (descr : String)
deriving DecidableEq, Repr

/-- Modelled from the spec: the Tensor Buffer of
impl/model/parallelism/pipeline_parallel/tensor_storage.py, which is not included
under src/. Spec section 4.1: a mapping from (tag, micro-batch slot) to a value, with
put (overwriting is legal), get (optionally removing), and a bulk remove(tag) that
drops every slot of a tag. -/
structure TensorBuffer where
  entries : List ((String × Nat) × TBVal)
deriving DecidableEq, Repr

/-- The empty tensor buffer. -/
def TensorBuffer.empty : TensorBuffer := ⟨[]⟩

/-- `put(tag, slot, value)`: insert, overwriting any previous entry. -/
def TensorBuffer.put (tb : TensorBuffer) (tag : String) (slot : Nat) (v : TBVal) :
    TensorBuffer :=
  ⟨((tag, slot), v) :: tb.entries.filter (fun e => decide (e.1 ≠ (tag, slot)))⟩

/-- Lookup of the value stored under (tag, slot), if any. -/
def TensorBuffer.lookup (tb : TensorBuffer) (tag : String) (slot : Nat) : Option TBVal :=
  (tb.entries.find? (fun e => decide (e.1 = (tag, slot)))).map Prod.snd

/-- `remove(tag)`: bulk drop of every slot of a tag (used by the `_post_*` phases). -/
def TensorBuffer.removeTag (tb : TensorBuffer) (tag : String) : TensorBuffer :=
  ⟨tb.entries.filter (fun e => decide (e.1.1 ≠ tag))⟩

/-- Bulk removal of a list of tags, one `remove(tag)` call per element. -/
def TensorBuffer.removeTags (tb : TensorBuffer) (tags : List String) : TensorBuffer :=
  tags.foldl (fun b t => b.removeTag t) tb

lemma TensorBuffer.lookup_removeTag (tb : TensorBuffer) (t tag : String) (slot : Nat) :
    (tb.removeTag t).lookup tag slot
      = if tag = t then none else tb.lookup tag slot := by
  by_cases h : tag = t
  · subst h
    rw [if_pos rfl]
    unfold TensorBuffer.removeTag TensorBuffer.lookup
    induction tb.entries with
    | nil => simp
    | cons e rest ih =>
      by_cases he : e.1.1 = tag
      · simp only [List.filter_cons, he]
        simpa using ih
      · simp only [List.filter_cons]
        rw [if_pos (by simpa using he)]
        rw [List.find?_cons_of_neg _ (by simp; intro hc; exact absurd (by rw [hc]) he)]
        exact ih
  · rw [if_neg h]
    unfold TensorBuffer.removeTag TensorBuffer.lookup
    induction tb.entries with
    | nil => simp
    | cons e rest ih =>
      by_cases hfst : e.1 = (tag, slot)
      · have : e.1.1 ≠ t := by rw [hfst]; simpa using h
        simp only [List.filter_cons]
        rw [if_pos (by simpa using this)]
        rw [List.find?_cons_of_pos _ (by simpa using hfst),
          List.find?_cons_of_pos _ (by simpa using hfst)]
      · by_cases hone : e.1.1 = t
        · simp only [List.filter_cons, hone]
          rw [if_neg (by simp)]
          rw [List.find?_cons_of_neg _ (by simpa using hfst)]
          exact ih
        · simp only [List.filter_cons]
          rw [if_pos (by simpa using hone)]
          rw [List.find?_cons_of_neg _ (by simpa using hfst),
            List.find?_cons_of_neg _ (by simpa using hfst)]
          exact ih

lemma TensorBuffer.removeTags_cons (tb : TensorBuffer) (t : String)
    (rest : List String) :
    tb.removeTags (t :: rest) = (tb.removeTag t).removeTags rest := rfl

lemma TensorBuffer.lookup_removeTags_not_mem (tags : List String) (tag : String)
    (slot : Nat) :
    ∀ (tb : TensorBuffer), tag ∉ tags →
      (tb.removeTags tags).lookup tag slot = tb.lookup tag slot := by
  induction tags with
  | nil => intro tb _; rfl
  | cons t rest ih =>
    intro tb h
    rw [TensorBuffer.removeTags_cons]
    rw [ih (tb.removeTag t) (fun hc => h (List.mem_cons_of_mem _ hc))]
    rw [TensorBuffer.lookup_removeTag]
    rw [if_neg (fun hc => h (by rw [hc]; exact List.mem_cons_self _ _))]

lemma TensorBuffer.lookup_removeTags_mem (tags : List String) (tag : String)
    (slot : Nat) :
    ∀ (tb : TensorBuffer), tag ∈ tags →
      (tb.removeTags tags).lookup tag slot = none := by
  induction tags with
  | nil => intro tb h; simp at h
  | cons t rest ih =>
    intro tb h
    rw [TensorBuffer.removeTags_cons]
    by_cases hr : tag ∈ rest
    · exact ih _ hr
    · have ht : tag = t := by
        rcases List.mem_cons.mp h with h' | h'
        · exact h'
        · exact absurd h' hr
      subst ht
      rw [TensorBuffer.lookup_removeTags_not_mem rest tag slot _ hr]
      rw [TensorBuffer.lookup_removeTag, if_pos rfl]

/-- Helper: apply a per-micro-batch buffer update for every slot in [0, nmb), in
slot order (the python loops `for mbid in range(...)`). -/
def putsForEachMb (nmb : Nat) (f : Nat → TensorBuffer → TensorBuffer)
    (tb : TensorBuffer) : TensorBuffer :=
  (List.range nmb).foldl (fun b m => f m b) tb

/-- Buffer effect of `_prepare_input` (ds_pipe_engine.py lines 189-266): an
"input_cache" entry per micro-batch when computing a loss, "pad_size" (plus
"pad_seq_size" in generate) when sequence parallelism is on, then "batch_input_x",
"batch_input_ys", "batch_lengths", "mb_seq_lens" per micro-batch, and finally
"pipe_transfer_infos" per micro-batch. Tensor payloads are opaque. -/
def prepareInputBuf (nmb : Nat) (computeLoss seqPar genMode : Bool)
    (batchLengths mbSeqLens : Nat → Nat) (tb : TensorBuffer) : TensorBuffer :=
  let tb1 := if computeLoss then
      putsForEachMb nmb (fun m b => b.put "input_cache" m (TBVal.obj "splitted input")) tb
    else tb
  let tb2 := if seqPar then
      if genMode then
        putsForEachMb nmb (fun m b =>
          (b.put "pad_size" m (TBVal.obj "pad size")).put "pad_seq_size" m
            (TBVal.obj "pad seq size")) tb1
      else
        putsForEachMb nmb (fun m b => b.put "pad_size" m (TBVal.obj "pad size")) tb1
    else tb1
  let tb3 := putsForEachMb nmb (fun m b =>
    (((b.put "batch_input_x" m (TBVal.obj "PipeTransferData")).put "batch_input_ys" m
        (TBVal.obj "PipeCacheData list")).put "batch_lengths" m
      (TBVal.nat (batchLengths m))).put "mb_seq_lens" m (TBVal.nat (mbSeqLens m))) tb2
  putsForEachMb nmb (fun m b => b.put "pipe_transfer_infos" m
    (TBVal.obj "cu_seqlens max_seqlen store_kv_cache")) tb3

/-- Buffer effect of `_pre_generate` (ds_pipe_engine.py lines 281-296): per
micro-batch initialize the generation sub-state tags. -/
def preGenerateBuf (nmb : Nat) (tb : TensorBuffer) : TensorBuffer :=
  putsForEachMb nmb (fun m b =>
    (((((((b.put "kv_cache_reserved" m (TBVal.bool false)).put "terminate" m
      (TBVal.bool false)).put "generated_idx" m (TBVal.nat 0)).put
      "unfinished_sequences" m (TBVal.obj "ones of batch_length")).put
      "gen_token_ph" m (TBVal.obj "empty list")).put
      "gen_logprob_ph" m (TBVal.obj "empty list")).put
      "gen_logits_mask_ph" m (TBVal.obj "empty list")).put
      "first_token" m (TBVal.bool true)) tb

/-- The tags removed by `_clear_p2p_caches` (ds_pipe_engine.py lines 336-344). -/
def p2pCacheTags : List String :=
  ["recv_next_tokens_buf", "recv_act_buf", "recv_next_tokens_handle",
   "recv_act_handle", "recv_grad_handle", "send_act_handle",
   "send_next_tokens_handle", "send_grad_handle"]

/-- Buffer effect of `_clear_p2p_caches`. -/
def clearP2PCachesBuf (tb : TensorBuffer) : TensorBuffer :=
  tb.removeTags p2pCacheTags

/-- The tags removed directly by `_post_generate` (ds_pipe_engine.py lines 298-315),
in call order, before it calls `_clear_p2p_caches`. -/
def postGenerateTags : List String :=
  ["next_tokens_cache", "next_tokens_to_send", "generated_idx", "terminate",
   "unfinished_sequences", "gen_token_ph", "gen_logprob_ph", "gen_logits_mask_ph",
   "batch_lengths", "prompt_logits", "kv_cache_reserved", "batch_input_x",
   "batch_input_ys", "input_cache", "first_token"]

/-- Buffer effect of `_post_generate`. -/
def postGenerateBuf (tb : TensorBuffer) : TensorBuffer :=
  clearP2PCachesBuf (tb.removeTags postGenerateTags)

/-- The tags removed directly by `_post_eval_batch` (ds_pipe_engine.py lines
326-334) before it calls `_clear_p2p_caches`. -/
def postEvalBatchTags : List String :=
  ["batch_input_x", "batch_input_ys", "batch_lengths", "loss_inputs", "input_cache",
   "losses", "stats"]

/-- Buffer effect of `_post_eval_batch`. -/
def postEvalBatchBuf (tb : TensorBuffer) : TensorBuffer :=
  clearP2PCachesBuf (tb.removeTags postEvalBatchTags)

/-- Buffer effect of `_post_forward` (ds_pipe_engine.py lines 355-358):
`_post_eval_batch`, then remove "logits", then `_clear_p2p_caches` again. -/
def postForwardBuf (tb : TensorBuffer) : TensorBuffer :=
  clearP2PCachesBuf ((postEvalBatchBuf tb).removeTag "logits")

/-- Buffer effect of `_post_train_batch` (ds_pipe_engine.py lines 369-370), which
just calls `_post_eval_batch` (train_batch itself also calls `_post_eval_batch`). -/
def postTrainBatchBuf (tb : TensorBuffer) : TensorBuffer :=
  postEvalBatchBuf tb

/-- GenerationConfig (flash_mqat.py lines 536-544), with the float temperature and
top_p embedded as rationals. -/
structure GenerationConfig where
  min_new_tokens : Int := 1
  max_new_tokens : Int := 10
  temperature : ℚ := 1
  greedy : Bool := true
  top_p : ℚ := 1
  top_k : Int := 0
  num_samples : Int := 1
deriving DecidableEq, Repr

/-- The in-place update `gconfig.max_new_tokens += self.num_stages - 1` performed by
DeepSpeedPipelineEngine.generate (ds_pipe_engine.py line 532), commented
"for elegant generation termination"; nothing ever subtracts it back. -/
def generateUpdateGconfig (numStages : Nat) (g : GenerationConfig) : GenerationConfig :=
  { g with max_new_tokens := g.max_new_tokens + ((numStages : Int) - 1) }

/-- Caller-visible state of a generate call: the (mutable, caller-owned)
GenerationConfig object and the engine tensor buffer. -/
structure PipeEngineGenState where
  gconfig : GenerationConfig
  buffer : TensorBuffer

/-- The generate entry point (ds_pipe_engine.py lines 519-549), restricted to its
effect on the caller-supplied GenerationConfig and on the tensor buffer:
`_prepare_input`, the in-place `max_new_tokens` bump, `_pre_generate`, the schedule
execution (whose buffer effect, together with the last-stage output gathering of
`_maybe_gather_generate_outputs`, is abstracted as `execEffect`; on a non-last stage
the gathering is a no-op), and finally `_post_generate`. -/
def generateCall (numStages nmb : Nat) (seqPar : Bool)
    (batchLengths mbSeqLens : Nat → Nat) (execEffect : TensorBuffer → TensorBuffer)
    (s : PipeEngineGenState) : PipeEngineGenState :=
  let tb1 := prepareInputBuf nmb false seqPar true batchLengths mbSeqLens s.buffer
  let g1 := generateUpdateGconfig numStages s.gconfig
  let tb2 := preGenerateBuf nmb tb1
  let tb3 := execEffect tb2
  ⟨g1, postGenerateBuf tb3⟩

lemma lookup_clear_inner (inner : List String) (tb : TensorBuffer) (tag : String)
    (slot : Nat) (h : tag ∈ inner ++ p2pCacheTags) :
    (clearP2PCachesBuf (tb.removeTags inner)).lookup tag slot = none := by
  by_cases hp : tag ∈ p2pCacheTags
  · exact TensorBuffer.lookup_removeTags_mem _ _ _ _ hp
  · have hi : tag ∈ inner := by
      rcases List.mem_append.mp h with h' | h'
      · exact h'
      · exact absurd h' hp
    unfold clearP2PCachesBuf
    rw [TensorBuffer.lookup_removeTags_not_mem _ _ _ _ hp]
    exact TensorBuffer.lookup_removeTags_mem _ _ _ _ hi

/-- Claim C4 (amended): each `_post_*` phase empties the buffer of precisely the tags
it removes — for `_post_generate` the fifteen generation tags plus the p2p-cache
tags, for `_post_eval_batch` and `_post_train_batch` the seven eval tags plus the
p2p-cache tags, for `_post_forward` additionally "logits" — but entries stored under
"mb_seq_lens" and "pipe_transfer_infos" during `_prepare_input` are not removed by
any of the `_post_*` phases and survive them unchanged. -/
theorem post_phase_buffer_cleanup (tb : TensorBuffer) (slot : Nat) :
    (∀ tag ∈ postGenerateTags ++ p2pCacheTags,
      (postGenerateBuf tb).lookup tag slot = none) ∧
    (∀ tag ∈ postEvalBatchTags ++ p2pCacheTags,
      (postEvalBatchBuf tb).lookup tag slot = none) ∧
    (∀ tag ∈ "logits" :: (postEvalBatchTags ++ p2pCacheTags),
      (postForwardBuf tb).lookup tag slot = none) ∧
    (∀ tag ∈ postEvalBatchTags ++ p2pCacheTags,
      (postTrainBatchBuf tb).lookup tag slot = none) ∧
    (postGenerateBuf tb).lookup "mb_seq_lens" slot = tb.lookup "mb_seq_lens" slot ∧
    (postGenerateBuf tb).lookup "pipe_transfer_infos" slot
      = tb.lookup "pipe_transfer_infos" slot ∧
    (postEvalBatchBuf tb).lookup "mb_seq_lens" slot = tb.lookup "mb_seq_lens" slot ∧
    (postEvalBatchBuf tb).lookup "pipe_transfer_infos" slot
      = tb.lookup "pipe_transfer_infos" slot ∧
    (postForwardBuf tb).lookup "mb_seq_lens" slot = tb.lookup "mb_seq_lens" slot ∧
    (postForwardBuf tb).lookup "pipe_transfer_infos" slot
      = tb.lookup "pipe_transfer_infos" slot := by
  have hpres : ∀ (tag : String), tag ∉ p2pCacheTags → tag ∉ postGenerateTags →
      tag ∉ postEvalBatchTags → tag ≠ "logits" →
      ((postGenerateBuf tb).lookup tag slot = tb.lookup tag slot ∧
       (postEvalBatchBuf tb).lookup tag slot = tb.lookup tag slot ∧
       (postForwardBuf tb).lookup tag slot = tb.lookup tag slot) := by
    intro tag hp hg he hl
    refine ⟨?_, ?_, ?_⟩
    · unfold postGenerateBuf clearP2PCachesBuf
      rw [TensorBuffer.lookup_removeTags_not_mem _ _ _ _ hp,
        TensorBuffer.lookup_removeTags_not_mem _ _ _ _ hg]
    · unfold postEvalBatchBuf clearP2PCachesBuf
      rw [TensorBuffer.lookup_removeTags_not_mem _ _ _ _ hp,
        TensorBuffer.lookup_removeTags_not_mem _ _ _ _ he]
    · unfold postForwardBuf clearP2PCachesBuf
      rw [TensorBuffer.lookup_removeTags_not_mem _ _ _ _ hp,
        TensorBuffer.lookup_removeTag, if_neg hl]
      unfold postEvalBatchBuf clearP2PCachesBuf
      rw [TensorBuffer.lookup_removeTags_not_mem _ _ _ _ hp,
        TensorBuffer.lookup_removeTags_not_mem _ _ _ _ he]
  refine ⟨fun tag h => lookup_clear_inner _ tb tag slot h,
    fun tag h => lookup_clear_inner _ tb tag slot h, ?_,
    fun tag h => lookup_clear_inner _ tb tag slot h,
    (hpres "mb_seq_lens" (by decide) (by decide) (by decide) (by decide)).1,
    (hpres "pipe_transfer_infos" (by decide) (by decide) (by decide) (by decide)).1,
    (hpres "mb_seq_lens" (by decide) (by decide) (by decide) (by decide)).2.1,
    (hpres "pipe_transfer_infos" (by decide) (by decide) (by decide) (by decide)).2.1,
    (hpres "mb_seq_lens" (by decide) (by decide) (by decide) (by decide)).2.2,
    (hpres "pipe_transfer_infos" (by decide) (by decide) (by decide) (by decide)).2.2⟩
  intro tag h
  rcases List.mem_cons.mp h with h' | h'
  · subst h'
    unfold postForwardBuf
    by_cases hp : "logits" ∈ p2pCacheTags
    · exact TensorBuffer.lookup_removeTags_mem _ _ _ _ hp
    · unfold clearP2PCachesBuf
      rw [TensorBuffer.lookup_removeTags_not_mem _ _ _ _ hp,
        TensorBuffer.lookup_removeTag, if_pos rfl]
  · by_cases hp : tag ∈ p2pCacheTags
    · exact TensorBuffer.lookup_removeTags_mem _ _ _ _ hp
    · have he : tag ∈ postEvalBatchTags := by
        rcases List.mem_append.mp h' with h'' | h''
        · exact h''
        · exact absurd h'' hp
      by_cases hl : tag = "logits"
      · subst hl
        unfold postForwardBuf
        unfold clearP2PCachesBuf
        rw [TensorBuffer.lookup_removeTags_not_mem _ _ _ _ hp,
          TensorBuffer.lookup_removeTag, if_pos rfl]
      · unfold postForwardBuf clearP2PCachesBuf
        rw [TensorBuffer.lookup_removeTags_not_mem _ _ _ _ hp,
          TensorBuffer.lookup_removeTag, if_neg hl]
        exact lookup_clear_inner _ tb tag slot (List.mem_append.mpr (Or.inl he))

/-- Counterexample for claim C4 as stated: a generate call on a non-last stage with
one micro-batch (no sequence parallelism, schedule buffer effect abstracted away)
leaves the "mb_seq_lens" entry — a tag used during the phase, stored by
`_prepare_input` and read by the receive handlers — in the tensor buffer after
`_post_generate` returns, because no `_post_*` phase ever removes "mb_seq_lens". -/
theorem post_generate_keeps_mb_seq_lens_counterexample :
    (generateCall 4 1 false (fun _ => 1) (fun _ => 7) id
        ⟨⟨1, 10, 1, true, 1, 0, 1⟩, TensorBuffer.empty⟩).buffer.lookup "mb_seq_lens" 0
      = some (TBVal.nat 7) := by
  decide

/-- Claim C10: every DeepSpeedPipelineEngine.generate call adds num_stages - 1 to the
caller-supplied gconfig.max_new_tokens in place and never restores it, so the
mutation is visible to the caller after generate returns and compounds when the same
GenerationConfig object is passed to a second generate call. -/
theorem generate_mutates_gconfig (numStages nmb : Nat) (seqPar : Bool)
    (batchLengths mbSeqLens : Nat → Nat) (execEffect : TensorBuffer → TensorBuffer)
    (s : PipeEngineGenState) :
    (generateCall numStages nmb seqPar batchLengths mbSeqLens execEffect
        s).gconfig.max_new_tokens
      = s.gconfig.max_new_tokens + ((numStages : Int) - 1) ∧
    (generateCall numStages nmb seqPar batchLengths mbSeqLens execEffect
        (generateCall numStages nmb seqPar batchLengths mbSeqLens execEffect
          s)).gconfig.max_new_tokens
      = s.gconfig.max_new_tokens + 2 * ((numStages : Int) - 1) := by
  refine ⟨rfl, ?_⟩
  show s.gconfig.max_new_tokens + ((numStages : Int) - 1) + ((numStages : Int) - 1) = _
  ring

/-! ## KV-cache lifecycle in generate -/

/-- Where a layer's K/V cache tensors live: produced by the stage forward on the
prompt step, or an arena slab from the process-wide global memory buffer with its
sequence capacity. -/
inductive KVCacheState where
  | fromForward
  | arena (cap : Nat)
deriving DecidableEq, Repr

/-- The per-layer PipeCacheData fields that the KV-cache lifecycle touches
(impl/model/utils/data.py is summarized by spec section 3.5); `input_ids` and
`position_ids` do not participate. -/
structure PipeCacheDataM where
  cache_seqlens : Option (List Int)
  k_cache : Option KVCacheState
  v_cache : Option KVCacheState
deriving DecidableEq, Repr

/-- The KV-cache slab capacity
`max(max_seq_len + max_new_tokens, hidden_dim // head_dim + 10)` of
`__maybe_init_kv_cache` (ds_pipe_engine.py lines 745-746). -/
def kvCacheSeqlen (maxSeqLen maxNewTokens hiddenDim headDim : Nat) : Nat :=
  max (maxSeqLen + maxNewTokens) (hiddenDim / headDim + 10)

/-- The layer transformation of `__maybe_init_kv_cache` (ds_pipe_engine.py lines
718-766), after its generate-mode and not-yet-reserved guards have passed: on the
first stage the embedding layer (index 0) only gets `cache_seqlens := input_lens`;
every other cached layer — all layers up to, but not including, the head on the last
stage — gets a zero-filled arena slab of capacity `cap` for `k_cache`/`v_cache`
(the prompt K/V is copied in) and `cache_seqlens := input_lens`. -/
def maybeInitKvCache (isFirst isLast : Bool) (inputLens : List Int) (cap : Nat)
    (ys : List PipeCacheDataM) : List PipeCacheDataM :=
  (if isFirst then
    match ys.take (ys.length - (if isLast then 1 else 0)) with
    | [] => []
    | y0 :: rest =>
      { y0 with cache_seqlens := some inputLens } ::
        rest.map (fun _ => ⟨some inputLens, some (KVCacheState.arena cap),
          some (KVCacheState.arena cap)⟩)
  else
    (ys.take (ys.length - (if isLast then 1 else 0))).map
      (fun _ => ⟨some inputLens, some (KVCacheState.arena cap),
        some (KVCacheState.arena cap)⟩)) ++
    ys.drop (ys.length - (if isLast then 1 else 0))

/-- The in-place `y.cache_seqlens += 1` of `__maybe_increase_cache_seqlens`. -/
def bumpCacheSeqlens (y : PipeCacheDataM) : PipeCacheDataM :=
  { y with cache_seqlens := y.cache_seqlens.map (fun l => l.map (fun v => v + 1)) }

/-- `__maybe_increase_cache_seqlens` (ds_pipe_engine.py lines 768-778) after its
guards: increment the cache_seqlens of every layer, excluding the head on the last
stage (`ys = ys[:-1]`). -/
def maybeIncreaseCacheSeqlens (isLast : Bool) (ys : List PipeCacheDataM) :
    List PipeCacheDataM :=
  (ys.take (ys.length - (if isLast then 1 else 0))).map bumpCacheSeqlens ++
    ys.drop (ys.length - (if isLast then 1 else 0))

/-- Generation KV sub-state of one micro-batch: the "kv_cache_reserved" buffer flag
and the per-layer cache data. -/
structure KVMbState where
  reserved : Bool
  ys : List PipeCacheDataM
deriving DecidableEq, Repr

/-- The KV slice of `_exec_forward_pass` (ds_pipe_engine.py lines 707-708):
`is_first_step = __maybe_init_kv_cache(...)` — a no-op returning False unless in
generate mode with the micro-batch not yet reserved — followed by
`__maybe_increase_cache_seqlens(..., is_first_step)`, which increments only on
non-first generate steps. -/
def forwardPassKV (genMode isFirst isLast : Bool) (inputLens : List Int) (cap : Nat)
    (st : KVMbState) : KVMbState :=
  if ¬genMode then st
  else if st.reserved then
    ⟨st.reserved, maybeIncreaseCacheSeqlens isLast st.ys⟩
  else
    ⟨true, maybeInitKvCache isFirst isLast inputLens cap st.ys⟩

/-- `j` consecutive ForwardPass executions for one micro-batch. -/
def iterForwardKV (genMode isFirst isLast : Bool) (inputLens : List Int) (cap : Nat)
    (st : KVMbState) : Nat → KVMbState
  | 0 => st
  | j + 1 => forwardPassKV genMode isFirst isLast inputLens cap
      (iterForwardKV genMode isFirst isLast inputLens cap st j)

lemma list_map_const {α β : Type} (l : List α) (b : β) :
    l.map (fun _ => b) = List.replicate l.length b := by
  induction l with
  | nil => rfl
  | cons a rest ih => simp [List.replicate_succ, ih]

lemma maybeInitKvCache_length (isFirst isLast : Bool) (inputLens : List Int)
    (cap : Nat) (ys : List PipeCacheDataM) :
    (maybeInitKvCache isFirst isLast inputLens cap ys).length = ys.length := by
  unfold maybeInitKvCache
  by_cases hf : isFirst
  · rw [if_pos hf]
    rcases hys : ys.take (ys.length - (if isLast then 1 else 0)) with _ | ⟨y0, rest⟩
    · have h := congrArg List.length hys
      simp only [List.length_take, List.length_nil] at h
      simp only [List.length_append, List.length_nil, List.length_drop]
      omega
    · have h := congrArg List.length hys
      simp only [List.length_take, List.length_cons] at h
      simp only [List.length_append, List.length_cons, List.length_map,
        List.length_drop]
      omega
  · rw [if_neg hf]
    simp only [List.length_append, List.length_map, List.length_take,
      List.length_drop]
    omega

lemma maybeIncreaseCacheSeqlens_length (isLast : Bool) (ys : List PipeCacheDataM) :
    (maybeIncreaseCacheSeqlens isLast ys).length = ys.length := by
  unfold maybeIncreaseCacheSeqlens
  simp only [List.length_append, List.length_map, List.length_take, List.length_drop]
  omega

lemma maybeInitKvCache_take (isFirst isLast : Bool) (inputLens : List Int) (cap : Nat)
    (ys : List PipeCacheDataM) :
    ((maybeInitKvCache isFirst isLast inputLens cap ys).take
        (ys.length - (if isLast then 1 else 0))).map PipeCacheDataM.cache_seqlens
      = List.replicate (ys.length - (if isLast then 1 else 0)) (some inputLens) := by
  unfold maybeInitKvCache
  by_cases hf : isFirst
  · rw [if_pos hf]
    rcases hys : ys.take (ys.length - (if isLast then 1 else 0)) with _ | ⟨y0, rest⟩
    · have h := congrArg List.length hys
      simp only [List.length_take, List.length_nil] at h
      have h0 : ys.length - (if isLast then 1 else 0) = 0 := by omega
      rw [h0]
      simp
    · have h := congrArg List.length hys
      simp only [List.length_take, List.length_cons] at h
      have hlen : (({ y0 with cache_seqlens := some inputLens } : PipeCacheDataM) ::
          rest.map (fun _ => (⟨some inputLens, some (KVCacheState.arena cap),
            some (KVCacheState.arena cap)⟩ : PipeCacheDataM))).length
          = ys.length - (if isLast then 1 else 0) := by
        simp only [List.length_cons, List.length_map]
        omega
      rw [List.take_left' hlen]
      have hhi : ys.length - (if isLast then 1 else 0) = rest.length + 1 := by omega
      rw [hhi, List.replicate_succ]
      simp only [List.map_cons, List.map_map]
      congr 1
      rw [show (PipeCacheDataM.cache_seqlens ∘ (fun (_ : PipeCacheDataM) =>
          (⟨some inputLens, some (KVCacheState.arena cap),
            some (KVCacheState.arena cap)⟩ : PipeCacheDataM)))
          = fun _ => some inputLens from rfl]
      rw [list_map_const]
  · rw [if_neg hf]
    have hlen : ((ys.take (ys.length - (if isLast then 1 else 0))).map
        (fun _ => (⟨some inputLens, some (KVCacheState.arena cap),
          some (KVCacheState.arena cap)⟩ : PipeCacheDataM))).length
        = ys.length - (if isLast then 1 else 0) := by
      simp only [List.length_map, List.length_take]
      omega
    rw [List.take_left' hlen, List.map_map]
    rw [show (PipeCacheDataM.cache_seqlens ∘ (fun (_ : PipeCacheDataM) =>
        (⟨some inputLens, some (KVCacheState.arena cap),
          some (KVCacheState.arena cap)⟩ : PipeCacheDataM)))
        = fun _ => some inputLens from rfl]
    rw [list_map_const]
    simp only [List.length_take]
    congr 1
    omega

lemma maybeIncreaseCacheSeqlens_take (isLast : Bool) (ys : List PipeCacheDataM) :
    ((maybeIncreaseCacheSeqlens isLast ys).take
        (ys.length - (if isLast then 1 else 0))).map PipeCacheDataM.cache_seqlens
      = ((ys.take (ys.length - (if isLast then 1 else 0))).map
          PipeCacheDataM.cache_seqlens).map
        (Option.map (fun l => l.map (fun v => v + 1))) := by
  unfold maybeIncreaseCacheSeqlens
  have hlen : ((ys.take (ys.length - (if isLast then 1 else 0))).map
      bumpCacheSeqlens).length = ys.length - (if isLast then 1 else 0) := by
    simp only [List.length_map, List.length_take]
    omega
  rw [List.take_left' hlen, List.map_map, List.map_map]
  rfl

lemma forwardPassKV_reserved_step (isFirst isLast : Bool) (inputLens : List Int)
    (cap : Nat) (st : KVMbState) (h : st.reserved = true) :
    forwardPassKV true isFirst isLast inputLens cap st
      = ⟨st.reserved, maybeIncreaseCacheSeqlens isLast st.ys⟩ := by
  unfold forwardPassKV
  rw [if_neg (by simp), if_pos h]

lemma map_add_cast_succ (lens : List Int) (n : Nat) (hn : 1 ≤ n) :
    (lens.map (fun v => v + ((n - 1 : Nat) : Int))).map (fun v => v + 1)
      = lens.map (fun v => v + ((n : Nat) : Int)) := by
  rw [List.map_map]
  congr 1
  funext v
  simp only [Function.comp_apply]
  have hc : ((n - 1 : Nat) : Int) = (n : Int) - 1 := by omega
  rw [hc]
  ring

lemma iterForwardKV_invariant (isFirst isLast : Bool) (inputLens : List Int)
    (cap : Nat) (ys0 : List PipeCacheDataM) :
    ∀ j, 1 ≤ j →
      (iterForwardKV true isFirst isLast inputLens cap ⟨false, ys0⟩ j).reserved = true ∧
      (iterForwardKV true isFirst isLast inputLens cap ⟨false, ys0⟩ j).ys.length
        = ys0.length ∧
      (((iterForwardKV true isFirst isLast inputLens cap ⟨false, ys0⟩ j).ys.take
          (ys0.length - (if isLast then 1 else 0))).map PipeCacheDataM.cache_seqlens)
        = List.replicate (ys0.length - (if isLast then 1 else 0))
            (some (inputLens.map (fun v => v + ((j - 1 : Nat) : Int)))) := by
  intro j hj
  induction j with
  | zero => omega
  | succ n ih =>
    by_cases hn : n = 0
    · subst hn
      have h1 : iterForwardKV true isFirst isLast inputLens cap ⟨false, ys0⟩ 1
          = ⟨true, maybeInitKvCache isFirst isLast inputLens cap ys0⟩ := rfl
      rw [h1]
      refine ⟨rfl, maybeInitKvCache_length isFirst isLast inputLens cap ys0, ?_⟩
      rw [show ((⟨true, maybeInitKvCache isFirst isLast inputLens cap ys0⟩ :
          KVMbState).ys) = maybeInitKvCache isFirst isLast inputLens cap ys0 from rfl]
      rw [maybeInitKvCache_take]
      congr 2
      simp
    · have hn1 : 1 ≤ n := by omega
      obtain ⟨hres, hlen, htake⟩ := ih hn1
      have hstep : iterForwardKV true isFirst isLast inputLens cap ⟨false, ys0⟩ (n + 1)
          = ⟨(iterForwardKV true isFirst isLast inputLens cap ⟨false, ys0⟩ n).reserved,
             maybeIncreaseCacheSeqlens isLast
               (iterForwardKV true isFirst isLast inputLens cap ⟨false, ys0⟩ n).ys⟩ := by
        show forwardPassKV true isFirst isLast inputLens cap
          (iterForwardKV true isFirst isLast inputLens cap ⟨false, ys0⟩ n) = _
        exact forwardPassKV_reserved_step isFirst isLast inputLens cap _ hres
      rw [hstep]
      refine ⟨hres, ?_, ?_⟩
      · rw [show ((⟨_, maybeIncreaseCacheSeqlens isLast
            (iterForwardKV true isFirst isLast inputLens cap ⟨false, ys0⟩ n).ys⟩ :
            KVMbState).ys) = maybeIncreaseCacheSeqlens isLast
            (iterForwardKV true isFirst isLast inputLens cap ⟨false, ys0⟩ n).ys from rfl]
        rw [maybeIncreaseCacheSeqlens_length]
        exact hlen
      · rw [show ((⟨_, maybeIncreaseCacheSeqlens isLast
            (iterForwardKV true isFirst isLast inputLens cap ⟨false, ys0⟩ n).ys⟩ :
            KVMbState).ys) = maybeIncreaseCacheSeqlens isLast
            (iterForwardKV true isFirst isLast inputLens cap ⟨false, ys0⟩ n).ys from rfl]
        rw [show ys0.length - (if isLast then 1 else 0)
            = (iterForwardKV true isFirst isLast inputLens cap ⟨false, ys0⟩ n).ys.length
              - (if isLast then 1 else 0) from by rw [hlen]]
        rw [maybeIncreaseCacheSeqlens_take]
        rw [show (iterForwardKV true isFirst isLast inputLens cap
              ⟨false, ys0⟩ n).ys.length - (if isLast then 1 else 0)
            = ys0.length - (if isLast then 1 else 0) from by rw [hlen]]
        rw [htake, List.map_replicate]
        congr 2
        simp only [Option.map_some']
        rw [map_add_cast_succ inputLens n hn1]
        simp

/-- Claim C3: in generate mode, for every micro-batch, the kv_cache_reserved flag is
false before any ForwardPass and true after every prefix of j ≥ 1 ForwardPasses — a
false→true transition exactly once, at the first ForwardPass handled for the
micro-batch; after j ≥ 1 ForwardPasses every cached layer's cache_seqlens equals
input_lens + (j - 1), and the (j+1)-st ForwardPass increments each of them by exactly
1; and `_post_generate` removes the "kv_cache_reserved" and "batch_input_ys" entries
(the buffer state holding the per-layer KV caches) of every micro-batch slot from the
tensor buffer. -/
theorem kv_cache_lifecycle (isFirst isLast : Bool) (inputLens : List Int) (cap : Nat)
    (ys0 : List PipeCacheDataM) (tb : TensorBuffer) (slot : Nat) (j : Nat)
    (hj : 1 ≤ j) :
    (iterForwardKV true isFirst isLast inputLens cap ⟨false, ys0⟩ 0).reserved = false ∧
    (iterForwardKV true isFirst isLast inputLens cap ⟨false, ys0⟩ j).reserved = true ∧
    (((iterForwardKV true isFirst isLast inputLens cap ⟨false, ys0⟩ j).ys.take
        (ys0.length - (if isLast then 1 else 0))).map PipeCacheDataM.cache_seqlens)
      = List.replicate (ys0.length - (if isLast then 1 else 0))
          (some (inputLens.map (fun v => v + ((j - 1 : Nat) : Int)))) ∧
    (((iterForwardKV true isFirst isLast inputLens cap ⟨false, ys0⟩ (j + 1)).ys.take
        (ys0.length - (if isLast then 1 else 0))).map PipeCacheDataM.cache_seqlens)
      = ((((iterForwardKV true isFirst isLast inputLens cap ⟨false, ys0⟩ j).ys.take
            (ys0.length - (if isLast then 1 else 0))).map
          PipeCacheDataM.cache_seqlens).map
            (Option.map (fun l => l.map (fun v => v + 1)))) ∧
    (postGenerateBuf tb).lookup "kv_cache_reserved" slot = none ∧
    (postGenerateBuf tb).lookup "batch_input_ys" slot = none := by
  obtain ⟨hres, hlen, htake⟩ :=
    iterForwardKV_invariant isFirst isLast inputLens cap ys0 j hj
  obtain ⟨hres', hlen', htake'⟩ :=
    iterForwardKV_invariant isFirst isLast inputLens cap ys0 (j + 1) (by omega)
  refine ⟨rfl, hres, htake, ?_, ?_, ?_⟩
  · rw [htake', htake, List.map_replicate]
    congr 2
    simp only [Option.map_some']
    rw [map_add_cast_succ inputLens j hj]
    simp
  · unfold postGenerateBuf clearP2PCachesBuf
    rw [TensorBuffer.lookup_removeTags_not_mem _ _ _ _ (by decide)]
    exact TensorBuffer.lookup_removeTags_mem _ _ _ _ (by decide)
  · unfold postGenerateBuf clearP2PCachesBuf
    rw [TensorBuffer.lookup_removeTags_not_mem _ _ _ _ (by decide)]
    exact TensorBuffer.lookup_removeTags_mem _ _ _ _ (by decide)

/-- Concrete three-layer stage (last stage: two cached layers plus the head) as left
by the prompt forward pass, used by the claim C3 witness. -/
def kvWitnessYs : List PipeCacheDataM :=
  [⟨some [3, 5], some KVCacheState.fromForward, some KVCacheState.fromForward⟩,
   ⟨some [3, 5], some KVCacheState.fromForward, some KVCacheState.fromForward⟩,
   ⟨some [3, 5], some KVCacheState.fromForward, some KVCacheState.fromForward⟩]

/-- Witness for claim C3: the lifecycle evaluated on a concrete last stage with three
layers, two sequences of prompt lengths 3 and 5, and j = 2 forward passes. -/
theorem kv_cache_lifecycle_witness :
    1 ≤ 2 ∧
    ((iterForwardKV true false true [(3 : Int), 5] 20 ⟨false, kvWitnessYs⟩ 0).reserved
        = false ∧
      (iterForwardKV true false true [(3 : Int), 5] 20 ⟨false, kvWitnessYs⟩ 2).reserved
        = true ∧
      (((iterForwardKV true false true [(3 : Int), 5] 20 ⟨false, kvWitnessYs⟩ 2).ys.take
          (kvWitnessYs.length - (if true then 1 else 0))).map
        PipeCacheDataM.cache_seqlens)
        = List.replicate (kvWitnessYs.length - (if true then 1 else 0))
            (some ([(3 : Int), 5].map (fun v => v + ((2 - 1 : Nat) : Int)))) ∧
      (((iterForwardKV true false true [(3 : Int), 5] 20
            ⟨false, kvWitnessYs⟩ (2 + 1)).ys.take
          (kvWitnessYs.length - (if true then 1 else 0))).map
        PipeCacheDataM.cache_seqlens)
        = ((((iterForwardKV true false true [(3 : Int), 5] 20
              ⟨false, kvWitnessYs⟩ 2).ys.take
              (kvWitnessYs.length - (if true then 1 else 0))).map
            PipeCacheDataM.cache_seqlens).map
              (Option.map (fun l => l.map (fun v => v + 1)))) ∧
      (postGenerateBuf TensorBuffer.empty).lookup "kv_cache_reserved" 0 = none ∧
      (postGenerateBuf TensorBuffer.empty).lookup "batch_input_ys" 0 = none) :=
  ⟨by decide, kv_cache_lifecycle false true [3, 5] 20 kvWitnessYs TensorBuffer.empty 0 2
    (by decide)⟩

/-! ## genstep (flash_mqat.py lines 547-599) -/

/-- The filler value for masked-out logits, standing for the float dtype minimum
(`torch.finfo(...).min`) and the −∞ EOS mask in the integer embedding of logits. -/
def dtypeMin : Int := -(2 ^ 127)

/-- Modelled from the spec: `mask_eos_token` (impl/model/utils/data.py, not included
under src/). Spec section 4.4 step 1: mask the EOS logit to −∞ so it cannot be
sampled; the masked value is `dtypeMin`. -/
def maskEosToken (eosTokenId : Int) (logits : List (List Int)) : List (List Int) :=
  logits.map (fun row => row.mapIdx (fun i v =>
    if (i : Int) = eosTokenId then dtypeMin else v))

/-- Index of the first maximum in a row (`Categorical(...).mode`, an argmax). -/
def argmaxAux : List Int → Nat → Nat → Int → Nat
  | [], _, bestIdx, _ => bestIdx
  | x :: xs, i, bestIdx, bestVal =>
    if bestVal < x then argmaxAux xs (i + 1) i x
    else argmaxAux xs (i + 1) bestIdx bestVal

/-- Argmax of a logit row, 0 on an empty row. -/
def argmaxRow : List Int → Nat
  | [] => 0
  | x :: xs => argmaxAux xs 1 0 x

/-- `tensor.max()` of a nonempty tensor (0 on the empty list, on which torch would
raise). -/
def listMaxI : List Int → Int
  | [] => 0
  | x :: xs => xs.foldl max x

/-- Result of one genstep call: the sampled (and pad-substituted) next tokens, the
terminate flag, the updated unfinished_sequences vector, and the logits mask (None
when no logit was filtered). The per-row log-probability output is floating-point
and not represented. -/
structure GenStepOut where
  next_tokens : List Int
  terminate : Bool
  unfinished : List Int
  logits_mask : Option (List (List Bool))
deriving DecidableEq, Repr

/-- `genstep` (flash_mqat.py lines 547-599) over integer logits. The tokenizer is
represented by its eos/pad token ids, with `eos_token_id` present (the engine always
passes a tokenizer that has one; with eos None the code would call
`tensor.ne(None)`). Floating-point parts are abstracted: the temperature division and
top-k/top-p filtering of the non-greedy branch are `filterFn`, and categorical
sampling is `sampleFn`; neither affects the terminate computation. Returns `none` for
the `ValueError` raised when eos is defined but pad is not. -/
def genstepM (next_token_logits : List (List Int)) (eosTokenId : Int)
    (padTokenId : Option Int) (unfinished_sequences : List Int) (generated_idx : Int)
    (gconfig : GenerationConfig) (filterFn : List (List Int) → List (List Int))
    (sampleFn : List (List Int) → List Int) : Option GenStepOut :=
  let l1 := if generated_idx < gconfig.min_new_tokens then
      maskEosToken eosTokenId next_token_logits
    else next_token_logits
  let l2 := if gconfig.greedy then l1 else filterFn l1
  let next0 := if gconfig.greedy then l2.map (fun row => (argmaxRow row : Int))
    else sampleFn l2
  match padTokenId with
  | none => none
  | some pad =>
    let next1 := List.zipWith (fun t u => t * u + pad * (1 - u)) next0
      unfinished_sequences
    let unfinished1 := List.zipWith
      (fun t u => (if t ≠ eosTokenId then (1 : Int) else 0) * u) next1
      unfinished_sequences
    let terminate := decide (generated_idx ≥ gconfig.max_new_tokens - 1)
      || decide (listMaxI unfinished1 = 0)
    let mask := l2.map (fun row => row.map (fun v => decide (v ≠ dtypeMin)))
    some ⟨next1, terminate, unfinished1,
      if mask.all (fun row => row.all (fun b => b)) then none else some mask⟩

lemma foldl_max_mem_le : ∀ (xs : List Int) (x : Int), ∀ y ∈ x :: xs,
    y ≤ xs.foldl max x := by
  intro xs
  induction xs with
  | nil =>
    intro x y hy
    simp only [List.mem_singleton] at hy
    simp [hy]
  | cons a as ih =>
    intro x y hy
    rw [List.foldl_cons]
    rcases List.mem_cons.mp hy with rfl | hy'
    · exact le_trans (le_max_left y a) (ih (max y a) (max y a) (List.mem_cons_self _ _))
    · rcases List.mem_cons.mp hy' with rfl | hy''
      · exact le_trans (le_max_right x y) (ih (max x y) (max x y) (List.mem_cons_self _ _))
      · exact ih (max x a) y (List.mem_cons_of_mem _ hy'')

lemma foldl_max_all_zero : ∀ (xs : List Int), (∀ x ∈ xs, x = (0 : Int)) →
    xs.foldl max 0 = 0 := by
  intro xs
  induction xs with
  | nil => intro _; rfl
  | cons a as ih =>
    intro h
    rw [List.foldl_cons]
    rw [h a (List.mem_cons_self _ _)]
    rw [show max (0 : Int) 0 = 0 from rfl]
    exact ih (fun x hx => h x (List.mem_cons_of_mem _ hx))

lemma listMaxI_eq_zero_iff (l : List Int) (h : ∀ x ∈ l, x = 0 ∨ x = 1) :
    listMaxI l = 0 ↔ ∀ x ∈ l, x = 0 := by
  cases l with
  | nil => simp [listMaxI]
  | cons x xs =>
    simp only [listMaxI]
    constructor
    · intro hmax y hy
      have hle := foldl_max_mem_le xs x y hy
      rw [hmax] at hle
      rcases h y hy with rfl | rfl
      · rfl
      · exact absurd hle (by norm_num)
    · intro hall
      rw [hall x (List.mem_cons_self _ _)]
      exact foldl_max_all_zero xs (fun y hy => hall y (List.mem_cons_of_mem _ hy))

lemma zipWith_indicator_zero_one (e : Int) :
    ∀ (a b : List Int), (∀ u ∈ b, u = 0 ∨ u = 1) →
      ∀ x ∈ List.zipWith (fun t u => (if t ≠ e then (1 : Int) else 0) * u) a b,
        x = 0 ∨ x = 1 := by
  intro a
  induction a with
  | nil =>
    intro b _ x hx
    simp at hx
  | cons t ts ih =>
    intro b hb x hx
    cases b with
    | nil => simp at hx
    | cons u us =>
      rw [List.zipWith_cons_cons] at hx
      rcases List.mem_cons.mp hx with rfl | hx'
      · rcases hb u (List.mem_cons_self _ _) with rfl | rfl
        · left; ring
        · by_cases ht : t ≠ e
          · right; rw [if_pos ht]; ring
          · left; rw [if_neg ht]; ring
      · exact ih us (fun v hv => hb v (List.mem_cons_of_mem _ hv)) x hx'

/-- Claim C5: for every genstep call, the returned terminate flag is true iff
generated_idx ≥ max_new_tokens − 1 or every row of the (returned, i.e. updated before
the terminate check) unfinished_sequences vector is zero; the code compares
`unfinished_sequences.max()` with 0, which on the 0/1-valued vector coincides with
all rows being zero. -/
theorem genstep_terminate_iff (logits : List (List Int)) (eosTokenId : Int)
    (padTokenId : Option Int) (unfinished : List Int) (generatedIdx : Int)
    (g : GenerationConfig) (filterFn : List (List Int) → List (List Int))
    (sampleFn : List (List Int) → List Int) (out : GenStepOut)
    (hu : ∀ u ∈ unfinished, u = 0 ∨ u = 1)
    (hout : genstepM logits eosTokenId padTokenId unfinished generatedIdx g filterFn
      sampleFn = some out) :
    out.terminate = true ↔
      (generatedIdx ≥ g.max_new_tokens - 1 ∨ ∀ u ∈ out.unfinished, u = 0) := by
  cases hpad : padTokenId with
  | none =>
    rw [hpad] at hout
    simp [genstepM] at hout
  | some pad =>
    rw [hpad] at hout
    simp only [genstepM] at hout
    rw [Option.some.injEq] at hout
    subst hout
    simp only [Bool.or_eq_true, decide_eq_true_eq]
    constructor
    · rintro (h | h)
      · exact Or.inl h
      · refine Or.inr ?_
        exact (listMaxI_eq_zero_iff _
          (zipWith_indicator_zero_one eosTokenId _ unfinished hu)).mp h
    · rintro (h | h)
      · exact Or.inl h
      · refine Or.inr ?_
        exact (listMaxI_eq_zero_iff _
          (zipWith_indicator_zero_one eosTokenId _ unfinished hu)).mpr h

set_option maxRecDepth 8192 in
/-- Witness for claim C5: a concrete greedy genstep call with two sequences in which
the first samples the EOS token (id 1): max_new_tokens = 1 makes terminate fire at
generated_idx 0, matching the iff with the updated unfinished vector [0, 1]. -/
theorem genstep_terminate_iff_witness :
    (∀ u ∈ ([1, 1] : List Int), u = 0 ∨ u = 1) ∧
    ((⟨[1, 0], true, [0, 1], none⟩ : GenStepOut).terminate = true ↔
      ((0 : Int) ≥ (⟨0, 1, 1, true, 1, 0, 1⟩ : GenerationConfig).max_new_tokens - 1 ∨
        ∀ u ∈ (⟨[1, 0], true, [0, 1], none⟩ : GenStepOut).unfinished, u = 0)) :=
  ⟨by decide,
    genstep_terminate_iff [[1, 5], [3, 2]] 1 (some 0) [1, 1] 0 ⟨0, 1, 1, true, 1, 0, 1⟩
      id (fun _ => []) ⟨[1, 0], true, [0, 1], none⟩ (by decide) rfl⟩

/-! ## PackedSupervisedFinetuningInterface.evaluate -/

/-- One batch yielded by the evaluation data loader as seen by
PackedSupervisedFinetuningInterface.evaluate: its cu_seqlens vector (the number of
sequences is cu_seqlens.shape[0] - 1) and the loss the module computed for it —
None on pipeline stages that do not hold the loss. The float loss is a rational. -/
structure EvalBatch where
  cu_seqlens : List Int
  loss : Option ℚ
deriving DecidableEq, Repr

/-- The per-step accumulation of evaluate (sft_flash_interface.py lines 146-148):
`losses += (cu_seqlens.shape[0] - 1) * loss; n_seqs += cu_seqlens.shape[0] - 1`,
skipped when loss is None. -/
def evalAccum (acc : ℚ × Nat) (b : EvalBatch) : ℚ × Nat :=
  match b.loss with
  | some l => (acc.1 + ((b.cu_seqlens.length - 1 : Nat) : ℚ) * l,
      acc.2 + (b.cu_seqlens.length - 1))
  | none => acc

/-- `evaluate` (sft_flash_interface.py lines 115-158), with torch.exp abstracted as
`expF` (the OverflowError fallback to inf cannot occur in the rational model):
iterate the loader accumulating via `evalAccum`, and return the `{ppl: ...}` entry
`some (expF (losses / n_seqs))` iff n_seqs > 0, else the empty dict (`none`). -/
def evaluateM (expF : ℚ → ℚ) (batches : List EvalBatch) : Option ℚ :=
  if 0 < (batches.foldl evalAccum (0, 0)).2 then
    some (expF ((batches.foldl evalAccum (0, 0)).1
      / (((batches.foldl evalAccum (0, 0)).2 : Nat) : ℚ)))
  else none

lemma evalAccum_foldl : ∀ (batches : List EvalBatch) (a : ℚ) (n : Nat),
    (∀ b ∈ batches, b.loss.isSome) →
    batches.foldl evalAccum (a, n)
      = (a + (batches.map (fun b =>
            ((b.cu_seqlens.length - 1 : Nat) : ℚ) * b.loss.getD 0)).sum,
         n + (batches.map (fun b => b.cu_seqlens.length - 1)).sum) := by
  intro batches
  induction batches with
  | nil =>
    intro a n _
    simp
  | cons b rest ih =>
    intro a n h
    rw [List.foldl_cons]
    cases hb : b.loss with
    | none => exact absurd (h b (List.mem_cons_self _ _)) (by simp [hb])
    | some l =>
      rw [show evalAccum (a, n) b
          = (a + ((b.cu_seqlens.length - 1 : Nat) : ℚ) * l,
             n + (b.cu_seqlens.length - 1)) from by
        unfold evalAccum
        rw [hb]]
      rw [ih _ _ (fun x hx => h x (List.mem_cons_of_mem _ hx))]
      simp only [List.map_cons, List.sum_cons, hb, Option.getD_some, Prod.mk.injEq]
      constructor
      · ring
      · omega

/-- Claim C9: for every evaluation over a data loader yielding at least one sequence
(and whose batches all carry a loss), evaluate returns a dictionary whose ppl field
equals exp((Σ_b n_b · loss_b) / (Σ_b n_b)) with n_b = cu_seqlens.shape[0] - 1, the
number of sequences of batch b. -/
theorem evaluate_ppl (expF : ℚ → ℚ) (batches : List EvalBatch)
    (hl : ∀ b ∈ batches, b.loss.isSome)
    (hn : ∃ b ∈ batches, 2 ≤ b.cu_seqlens.length) :
    evaluateM expF batches
      = some (expF ((batches.map (fun b =>
            ((b.cu_seqlens.length - 1 : Nat) : ℚ) * b.loss.getD 0)).sum
          / (((batches.map (fun b => b.cu_seqlens.length - 1)).sum : Nat) : ℚ))) := by
  obtain ⟨b0, hb0, hlen⟩ := hn
  have hpos : 0 < (batches.map (fun b => b.cu_seqlens.length - 1)).sum := by
    have hmem : b0.cu_seqlens.length - 1
        ∈ batches.map (fun b => b.cu_seqlens.length - 1) :=
      List.mem_map.mpr ⟨b0, hb0, rfl⟩
    have := List.single_le_sum (fun x _ => Nat.zero_le x) _ hmem
    omega
  unfold evaluateM
  rw [evalAccum_foldl batches 0 0 hl]
  rw [if_pos (by simpa using hpos)]
  simp

/-- Witness for claim C9: two batches (2 sequences with loss 2, 1 sequence with
loss 5) give ppl = exp((2·2 + 1·5)/3) = exp(3), with exp instantiated as the
identity. -/
theorem evaluate_ppl_witness :
    (∀ b ∈ [(⟨[0, 3, 7], some 2⟩ : EvalBatch), ⟨[0, 5], some 5⟩], b.loss.isSome) ∧
    (∃ b ∈ [(⟨[0, 3, 7], some 2⟩ : EvalBatch), ⟨[0, 5], some 5⟩],
      2 ≤ b.cu_seqlens.length) ∧
    evaluateM id [(⟨[0, 3, 7], some 2⟩ : EvalBatch), ⟨[0, 5], some 5⟩]
      = some (id (((([(⟨[0, 3, 7], some 2⟩ : EvalBatch), ⟨[0, 5], some 5⟩]).map
            (fun b => ((b.cu_seqlens.length - 1 : Nat) : ℚ) * b.loss.getD 0)).sum)
          / ((((([(⟨[0, 3, 7], some 2⟩ : EvalBatch), ⟨[0, 5], some 5⟩]).map
            (fun b => b.cu_seqlens.length - 1)).sum : Nat)) : ℚ))) :=
  ⟨by decide, ⟨⟨[0, 3, 7], some 2⟩, by decide⟩,
    evaluate_ppl id [⟨[0, 3, 7], some 2⟩, ⟨[0, 5], some 5⟩] (by decide)
      ⟨⟨[0, 3, 7], some 2⟩, by decide⟩⟩

/-! ## ModelWorker: data ownership (model_worker.py) -/

/-- Producer-side ownership bookkeeping of a model worker: `storage` is the key set
of `__data_owner_storage` (tensor payloads are opaque and not represented) and
`record` is `__data_send_record`, a defaultdict mapping (buffer_idx, key) to the
list of RPC names that have received the data (absent key means []). -/
structure DataOwnerState where
  storage : List (Nat × String)
  record : List ((Nat × String) × List String)
deriving DecidableEq, Repr

/-- The recorded RPC names of one (buffer_idx, key): `__data_send_record[(b, k)]`. -/
def DataOwnerState.recordOf (st : DataOwnerState) (bk : Nat × String) : List String :=
  ((st.record.find? (fun e => decide (e.1 = bk))).map Prod.snd).getD []

/-- The python `if rpc_name not in record: record.append(rpc_name)`
(model_worker.py lines 669-670). -/
def insertRpcName (rpcName : String) (r : List String) : List String :=
  if rpcName ∈ r then r else r ++ [rpcName]

/-- The sender-side bookkeeping of `__data_transfer_among_workers`
(model_worker.py lines 667-674), run after broadcasting (buf_idx, k) for RPC
`rpcName`: record the RPC name if absent; then, if
`set(data2required_rpc_names[k]).difference(record)` is empty, pop the storage
entry and its send record. -/
def markSent (required : String → List String) (st : DataOwnerState) (bufIdx : Nat)
    (k : String) (rpcName : String) : DataOwnerState :=
  if (required k).all (fun n => decide (n ∈ insertRpcName rpcName
      (st.recordOf (bufIdx, k)))) then
    ⟨st.storage.filter (fun e => decide (e ≠ (bufIdx, k))),
     st.record.filter (fun e => decide (e.1 ≠ (bufIdx, k)))⟩
  else
    ⟨st.storage,
     ((bufIdx, k), insertRpcName rpcName (st.recordOf (bufIdx, k))) ::
       st.record.filter (fun e => decide (e.1 ≠ (bufIdx, k)))⟩

/-- Claim C6: after a producer-side send, the (buffer_idx, key) entry is dropped
from `__data_owner_storage` iff the send record now contains every RPC name in
`data2required_rpc_names[key]`; while some required consumer is missing from the
record the entry remains in storage, and entries of other (buffer_idx, key) pairs
are untouched. -/
theorem data_owner_drop_iff (required : String → List String) (st : DataOwnerState)
    (bufIdx : Nat) (k : String) (rpcName : String) (bk : Nat × String)
    (hpresent : (bufIdx, k) ∈ st.storage) (hbk : bk ≠ (bufIdx, k)) :
    ((bufIdx, k) ∉ (markSent required st bufIdx k rpcName).storage ↔
      ∀ n ∈ required k, n ∈ insertRpcName rpcName (st.recordOf (bufIdx, k))) ∧
    ((¬ ∀ n ∈ required k, n ∈ insertRpcName rpcName (st.recordOf (bufIdx, k))) →
      (bufIdx, k) ∈ (markSent required st bufIdx k rpcName).storage) ∧
    (bk ∈ (markSent required st bufIdx k rpcName).storage ↔ bk ∈ st.storage) := by
  unfold markSent
  by_cases hall : (required k).all (fun n => decide (n ∈ insertRpcName rpcName
      (st.recordOf (bufIdx, k)))) = true
  · rw [if_pos hall]
    have hiff : ∀ n ∈ required k, n ∈ insertRpcName rpcName
        (st.recordOf (bufIdx, k)) := by
      intro n hn
      have := (List.all_eq_true.mp hall) n hn
      exact of_decide_eq_true this
    refine ⟨?_, fun hc => absurd hiff hc, ?_⟩
    · constructor
      · intro _
        exact hiff
      · intro _ hc
        rcases List.mem_filter.mp hc with ⟨_, hp⟩
        exact absurd rfl (of_decide_eq_true hp)
    · constructor
      · intro hc
        exact (List.mem_filter.mp hc).1
      · intro hc
        exact List.mem_filter.mpr ⟨hc, decide_eq_true hbk⟩
  · rw [if_neg hall]
    have hnall : ¬ ∀ n ∈ required k, n ∈ insertRpcName rpcName
        (st.recordOf (bufIdx, k)) := by
      intro hc
      exact hall (List.all_eq_true.mpr (fun n hn => decide_eq_true (hc n hn)))
    exact ⟨⟨fun hc => absurd hpresent hc, fun hc => absurd hc hnall⟩,
      fun _ => hpresent, Iff.rfl⟩

/-- Witness for claim C6: a stored slot for key "packed_input_ids" requiring
consumers ["train_step", "generate"]; after sending to "train_step" only, the iff
holds with the entry retained, and the unrelated slot (1, "rewards") is untouched. -/
theorem data_owner_drop_iff_witness :
    (((0 : Nat), "packed_input_ids") ∈ [((0 : Nat), "packed_input_ids")]) ∧
    (((1 : Nat), "rewards") ≠ ((0 : Nat), "packed_input_ids")) ∧
    ((((0 : Nat), "packed_input_ids") ∉ (markSent (fun _ => ["train_step", "generate"])
        ⟨[(0, "packed_input_ids")], []⟩ 0 "packed_input_ids" "train_step").storage ↔
      ∀ n ∈ ["train_step", "generate"], n ∈ insertRpcName "train_step"
        ((⟨[(0, "packed_input_ids")], []⟩ : DataOwnerState).recordOf
          (0, "packed_input_ids"))) ∧
    ((¬ ∀ n ∈ ["train_step", "generate"], n ∈ insertRpcName "train_step"
        ((⟨[(0, "packed_input_ids")], []⟩ : DataOwnerState).recordOf
          (0, "packed_input_ids"))) →
      ((0 : Nat), "packed_input_ids") ∈ (markSent (fun _ => ["train_step", "generate"])
        ⟨[(0, "packed_input_ids")], []⟩ 0 "packed_input_ids" "train_step").storage) ∧
    (((1 : Nat), "rewards") ∈ (markSent (fun _ => ["train_step", "generate"])
        ⟨[(0, "packed_input_ids")], []⟩ 0 "packed_input_ids" "train_step").storage ↔
      ((1 : Nat), "rewards") ∈
        (⟨[(0, "packed_input_ids")], []⟩ : DataOwnerState).storage)) :=
  ⟨by decide, by decide,
    data_owner_drop_iff (fun _ => ["train_step", "generate"])
      ⟨[(0, "packed_input_ids")], []⟩ 0 "packed_input_ids" "train_step" (1, "rewards")
      (by decide) (by decide)⟩

/-! ## ModelWorker: parameter handle flags and the request guard -/

/-- Pointwise update of the `__model_is_handle` dict; a model name is the pair
(symbolic name, replica id). -/
def setHandleFlag (f : String × Nat → Bool) (n : String × Nat) (b : Bool) :
    String × Nat → Bool :=
  fun m => if m = n then b else f m

/-- Construction-time flags (`__lazy_setup`, model_worker.py lines 341-346): replica
0 instantiates its module and is materialized (flag False); every other replica
starts as a handle (flag True). -/
def lazySetupFlags (shards : List (String × Nat)) (f0 : String × Nat → Bool) :
    String × Nat → Bool :=
  shards.foldl (fun f s => setHandleFlag f s (decide (s.2 ≠ 0))) f0

/-- The RPC hooks dispatched by `__handle_one_rpc_hook`
(model_worker.py lines 412-454). -/
inductive RpcHook where
  | data_transfer
  | param_sync (fromName toName : String × Nat)
  | offload (modelName : String × Nat)

/-- Effect of one hook on the handle flags (model_worker.py lines 440-445): only
param_sync changes them — the from_model becomes a handle and the to_model becomes
materialized, each only when present on this worker; data_transfer and offload do
not touch `__model_is_handle`. -/
def hookFlags (models : List (String × Nat)) (h : RpcHook)
    (f : String × Nat → Bool) : String × Nat → Bool :=
  match h with
  | RpcHook.param_sync fromName toName =>
    if toName ∈ models then
      setHandleFlag (if fromName ∈ models then setHandleFlag f fromName true else f)
        toName false
    else
      if fromName ∈ models then setHandleFlag f fromName true else f
  | _ => f

/-- The request kinds understood by `__model_poll_step`
(model_worker.py lines 492-580). -/
inductive RequestKind where
  | empty
  | initializeRpc
  | model_config
  | fetch
  | store
  | spec
  | inference
  | train_step
  | generate
  | evaluate
  | save
deriving DecidableEq, Repr

/-- The compute requests, each opening with
`assert not self.__model_is_handle[request.handler.model_name]`
(model_worker.py lines 541-578). -/
def computeRequestKinds : List RequestKind :=
  [RequestKind.inference, RequestKind.train_step, RequestKind.generate,
   RequestKind.evaluate, RequestKind.save]

/-- The dispatch of `__model_poll_step` (model_worker.py lines 492-580) restricted
to what claim C8 observes: every compute request — and initialize — asserts that the
target model is not a handle before touching the compute input queue or the model
interface (`Except.error` is the failed assertion); the Bool of the result records
whether the model interface was invoked, and no branch modifies the flags. -/
def modelPollStepDispatch (f : String × Nat → Bool) (kind : RequestKind)
    (target : String × Nat) : Except String (Bool × (String × Nat → Bool)) :=
  match kind with
  | RequestKind.empty => Except.ok (false, f)
  | RequestKind.initializeRpc =>
    if f target then Except.error "AssertionError" else Except.ok (false, f)
  | RequestKind.model_config => Except.ok (false, f)
  | RequestKind.fetch => Except.ok (false, f)
  | RequestKind.store => Except.ok (false, f)
  | RequestKind.spec => Except.ok (false, f)
  | RequestKind.inference =>
    if f target then Except.error "AssertionError" else Except.ok (true, f)
  | RequestKind.train_step =>
    if f target then Except.error "AssertionError" else Except.ok (true, f)
  | RequestKind.generate =>
    if f target then Except.error "AssertionError" else Except.ok (true, f)
  | RequestKind.evaluate =>
    if f target then Except.error "AssertionError" else Except.ok (true, f)
  | RequestKind.save =>
    if f target then Except.error "AssertionError" else Except.ok (true, f)

lemma modelPollStepDispatch_preserves_flags (f : String × Nat → Bool)
    (kind : RequestKind) (target : String × Nat)
    (res : Bool × (String × Nat → Bool))
    (hok : modelPollStepDispatch f kind target = Except.ok res) : res.2 = f := by
  cases kind <;> simp only [modelPollStepDispatch] at hok
  case empty => exact (congrArg Prod.snd (Except.ok.inj hok)).symm
  case model_config => exact (congrArg Prod.snd (Except.ok.inj hok)).symm
  case fetch => exact (congrArg Prod.snd (Except.ok.inj hok)).symm
  case store => exact (congrArg Prod.snd (Except.ok.inj hok)).symm
  case spec => exact (congrArg Prod.snd (Except.ok.inj hok)).symm
  all_goals
    by_cases h : f target = true
  all_goals
    first
      | (rw [if_pos h] at hok; exact (Except.noConfusion hok))
      | (rw [if_neg h] at hok; exact (congrArg Prod.snd (Except.ok.inj hok)).symm)

lemma lazySetupFlags_not_mem (shards : List (String × Nat)) (n : String × Nat) :
    ∀ (f0 : String × Nat → Bool), n ∉ shards → lazySetupFlags shards f0 n = f0 n := by
  induction shards with
  | nil => intro f0 _; rfl
  | cons s rest ih =>
    intro f0 h
    show lazySetupFlags rest (setHandleFlag f0 s (decide (s.2 ≠ 0))) n = f0 n
    rw [ih _ (fun hc => h (List.mem_cons_of_mem _ hc))]
    unfold setHandleFlag
    rw [if_neg (fun hc => h (by rw [hc]; exact List.mem_cons_self _ _))]

lemma lazySetupFlags_mem (shards : List (String × Nat)) (n : String × Nat) :
    ∀ (f0 : String × Nat → Bool), n ∈ shards →
      lazySetupFlags shards f0 n = decide (n.2 ≠ 0) := by
  induction shards with
  | nil => intro f0 h; simp at h
  | cons s rest ih =>
    intro f0 h
    show lazySetupFlags rest (setHandleFlag f0 s (decide (s.2 ≠ 0))) n = _
    by_cases hr : n ∈ rest
    · exact ih _ hr
    · have hs : n = s := by
        rcases List.mem_cons.mp h with h' | h'
        · exact h'
        · exact absurd h' hr
      rw [lazySetupFlags_not_mem rest n _ hr]
      unfold setHandleFlag
      rw [if_pos hs, hs]

/-- Claim C8: a compute request (inference, train_step, generate, evaluate, save)
whose target model is in the handle state fails the hard assertion before the model
interface is invoked; every successfully dispatched request leaves the handle flags
unchanged; the flags are set at construction (replica 0 materialized, other replicas
handle) and changed otherwise only by the param_sync hook (from_model becomes a
handle, to_model becomes materialized, all other models untouched; the data_transfer
and offload hooks change nothing). -/
theorem handle_state_guard (f : String × Nat → Bool) (kind kind' : RequestKind)
    (target target' : String × Nat) (res : Bool × (String × Nat → Bool))
    (models shards : List (String × Nat)) (fromName toName n m : String × Nat)
    (f0 : String × Nat → Bool)
    (hkind : kind ∈ computeRequestKinds) (hhandle : f target = true)
    (hok : modelPollStepDispatch f kind' target' = Except.ok res)
    (hn : n ∈ shards) (hm1 : m ≠ fromName) (hm2 : m ≠ toName)
    (hfrom : fromName ∈ models) (hto : toName ∈ models) (hne : fromName ≠ toName) :
    modelPollStepDispatch f kind target = Except.error "AssertionError" ∧
    res.2 = f ∧
    lazySetupFlags shards f0 n = decide (n.2 ≠ 0) ∧
    hookFlags models RpcHook.data_transfer f = f ∧
    hookFlags models (RpcHook.offload m) f = f ∧
    hookFlags models (RpcHook.param_sync fromName toName) f fromName = true ∧
    hookFlags models (RpcHook.param_sync fromName toName) f toName = false ∧
    hookFlags models (RpcHook.param_sync fromName toName) f m = f m := by
  refine ⟨?_, modelPollStepDispatch_preserves_flags f kind' target' res hok,
    lazySetupFlags_mem shards n f0 hn, rfl, rfl, ?_, ?_, ?_⟩
  · simp only [computeRequestKinds, List.mem_cons] at hkind
    rcases hkind with rfl | rfl | rfl | rfl | rfl | h
    · simp only [modelPollStepDispatch]
      rw [if_pos hhandle]
    · simp only [modelPollStepDispatch]
      rw [if_pos hhandle]
    · simp only [modelPollStepDispatch]
      rw [if_pos hhandle]
    · simp only [modelPollStepDispatch]
      rw [if_pos hhandle]
    · simp only [modelPollStepDispatch]
      rw [if_pos hhandle]
    · simp at h
  · simp [hookFlags, setHandleFlag, hto, hfrom, hne]
  · simp [hookFlags, setHandleFlag, hto]
  · by_cases h2 : toName ∈ models
    · by_cases h1 : fromName ∈ models
      · simp [hookFlags, setHandleFlag, h1, h2, hm1, hm2]
      · simp [hookFlags, setHandleFlag, h1, h2, hm1, hm2]
    · by_cases h1 : fromName ∈ models
      · simp [hookFlags, setHandleFlag, h1, h2, hm1, hm2]
      · simp [hookFlags, setHandleFlag, h1, h2, hm1, hm2]

/-- The construction-time handle flags of a worker holding replicas 0 and 1 of
model "actor", used by the claim C8 witness. -/
def handleWitnessFlags : String × Nat → Bool :=
  lazySetupFlags [("actor", 0), ("actor", 1)] (fun _ => false)

/-- Witness for claim C8: a generate request targeting the handle replica
("actor", 1) fails the assertion; a fetch dispatch preserves the flags; and the
param_sync hook from ("actor", 0) to ("ref", 0) flips exactly those two flags. -/
theorem handle_state_guard_witness :
    (RequestKind.generate ∈ computeRequestKinds) ∧
    (handleWitnessFlags ("actor", 1) = true) ∧
    (modelPollStepDispatch handleWitnessFlags RequestKind.fetch ("actor", 0)
      = Except.ok (false, handleWitnessFlags)) ∧
    ((("actor", 1) : String × Nat) ∈ [(("actor" : String), (0 : Nat)), ("actor", 1)]) ∧
    ((("critic", 0) : String × Nat) ≠ ("actor", 0)) ∧
    ((("critic", 0) : String × Nat) ≠ ("ref", 0)) ∧
    ((("actor", 0) : String × Nat) ∈ [(("actor" : String), (0 : Nat)), ("ref", 0)]) ∧
    ((("ref", 0) : String × Nat) ∈ [(("actor" : String), (0 : Nat)), ("ref", 0)]) ∧
    ((("actor", 0) : String × Nat) ≠ ("ref", 0)) ∧
    (modelPollStepDispatch handleWitnessFlags RequestKind.generate ("actor", 1)
        = Except.error "AssertionError" ∧
      ((false, handleWitnessFlags) : Bool × (String × Nat → Bool)).2
        = handleWitnessFlags ∧
      lazySetupFlags [("actor", 0), ("actor", 1)] (fun _ => false) ("actor", 1)
        = decide ((("actor", 1) : String × Nat).2 ≠ 0) ∧
      hookFlags [("actor", 0), ("ref", 0)] RpcHook.data_transfer handleWitnessFlags
        = handleWitnessFlags ∧
      hookFlags [("actor", 0), ("ref", 0)] (RpcHook.offload ("critic", 0))
        handleWitnessFlags = handleWitnessFlags ∧
      hookFlags [("actor", 0), ("ref", 0)]
          (RpcHook.param_sync ("actor", 0) ("ref", 0)) handleWitnessFlags ("actor", 0)
        = true ∧
      hookFlags [("actor", 0), ("ref", 0)]
          (RpcHook.param_sync ("actor", 0) ("ref", 0)) handleWitnessFlags ("ref", 0)
        = false ∧
      hookFlags [("actor", 0), ("ref", 0)]
          (RpcHook.param_sync ("actor", 0) ("ref", 0)) handleWitnessFlags
          ("critic", 0)
        = handleWitnessFlags ("critic", 0)) :=
  ⟨by decide, by decide, rfl, by decide, by decide, by decide, by decide, by decide,
    by decide,
    handle_state_guard handleWitnessFlags RequestKind.generate RequestKind.fetch
      ("actor", 1) ("actor", 0) (false, handleWitnessFlags)
      [("actor", 0), ("ref", 0)] [("actor", 0), ("actor", 1)]
      ("actor", 0) ("ref", 0) ("actor", 1) ("critic", 0) (fun _ => false)
      (by decide) (by decide) rfl (by decide) (by decide) (by decide) (by decide)
      (by decide) (by decide)⟩

/-! ## ModelWorker: request receipt and the ACK handshake -/

/-- A master-stream payload, restricted to the fields `__maybe_receive_one_request`
inspects: the request id, the handle name ("ack" marks an ACK message), and the
syn/ack reply ids of the three-way handshake. -/
structure Payload where
  request_id : Nat
  handle_name : String
  syn_reply_id : Nat
  ack_reply_id : Nat
deriving DecidableEq, Repr

/-- Receive-side state of a model worker: the master stream is the finite list of
messages that arrive during this tick, in order (an empty list means `poll()` raises
NoMessage); `ack_cache` holds the request ids of cached ACKs (`__ack_cache` keys),
`request_cache` is `__request_cache`, `request_queue` is the work queue
`__request_queue`, and `syn_posted` records the SYN replies posted. -/
structure WorkerRecvState where
  stream : List Payload
  ack_cache : List Nat
  request_cache : List Payload
  request_queue : List Payload
  syn_posted : List Nat
deriving DecidableEq, Repr

/-- `__maybe_receive_one_request` (model_worker.py lines 754-768): poll once; on
NoMessage do nothing; an "ack" goes into the ACK cache; any other request gets an
immediate SYN reply and is appended to the request cache. -/
def maybeReceiveOneRequest (st : WorkerRecvState) : WorkerRecvState :=
  match st.stream with
  | [] => st
  | r :: rest =>
    if r.handle_name = "ack" then
      { st with stream := rest, ack_cache := r.request_id :: st.ack_cache }
    else
      { st with
          stream := rest
          syn_posted := r.syn_reply_id :: st.syn_posted
          request_cache := st.request_cache ++ [r] }

/-- Outcome of the receive phase of one tick: `done` when
`__maybe_receive_requests` returns, `stuck` when it busy-polls forever (the inner
ACK-wait loop spinning on an exhausted stream). -/
inductive RecvOutcome where
  | done (st : WorkerRecvState)
  | stuck (st : WorkerRecvState)
deriving DecidableEq, Repr

/-- The worker state carried by either outcome. -/
def RecvOutcome.state : RecvOutcome → WorkerRecvState
  | RecvOutcome.done st => st
  | RecvOutcome.stuck st => st

/-- Whether the outcome is the diverging busy-poll. -/
def RecvOutcome.isStuck : RecvOutcome → Bool
  | RecvOutcome.done _ => false
  | RecvOutcome.stuck _ => true

/-- The inner `while request.ack_reply_id not in self.__ack_cache:
self.__maybe_receive_one_request()` loop (model_worker.py lines 776-777). Each
unsuccessful iteration consumes at most one stream message, so fuel equal to the
stream length is exact: when it runs out the stream is drained, the ACK can never
arrive within this tick, and the real loop spins forever — the `stuck` outcome. -/
def waitForAckAux (ackId : Nat) : Nat → WorkerRecvState → RecvOutcome
  | 0, st =>
    if ackId ∈ st.ack_cache then RecvOutcome.done st else RecvOutcome.stuck st
  | fuel + 1, st =>
    if ackId ∈ st.ack_cache then RecvOutcome.done st
    else waitForAckAux ackId fuel (maybeReceiveOneRequest st)

/-- The promotion of the head request `r` once its ACK has been observed
(model_worker.py lines 779-782): `self.__ack_cache.pop(request.ack_reply_id)`,
`self.__request_cache.pop(0)`, and the put into the work queue. -/
def promoteState (r : Payload) (st' : WorkerRecvState) : WorkerRecvState :=
  { st' with
      ack_cache := st'.ack_cache.erase r.ack_reply_id
      request_cache := st'.request_cache.drop 1
      request_queue := st'.request_queue ++ [r] }

/-- The outer `while len(self.__request_cache) > 0` loop of
`__maybe_receive_requests` (model_worker.py lines 774-782): wait (blocking) for the
head request's ACK, then pop the ACK, pop the request and promote it to the work
queue. Each iteration removes one cached request net of the stream messages it
consumes, so fuel `stream + cache length` is enough; fuel 0 is unreachable with the
fuel chosen by `maybeReceiveRequests`. -/
def promoteLoopAux : Nat → WorkerRecvState → RecvOutcome
  | 0, st => RecvOutcome.done st
  | fuel + 1, st =>
    match st.request_cache with
    | [] => RecvOutcome.done st
    | r :: _ =>
      match waitForAckAux r.ack_reply_id st.stream.length st with
      | RecvOutcome.stuck st' => RecvOutcome.stuck st'
      | RecvOutcome.done st' => promoteLoopAux fuel (promoteState r st')

/-- `__maybe_receive_requests` (model_worker.py lines 770-782): eight bounded polls,
then the promote loop over the request cache. -/
def maybeReceiveRequests (st : WorkerRecvState) : RecvOutcome :=
  promoteLoopAux
    (((List.range 8).foldl (fun s _ => maybeReceiveOneRequest s) st).stream.length +
      ((List.range 8).foldl (fun s _ => maybeReceiveOneRequest s) st).request_cache.length + 1)
    ((List.range 8).foldl (fun s _ => maybeReceiveOneRequest s) st)

/-- The request ids of the ACK messages of a stream. -/
def streamAckIds (msgs : List Payload) : List Nat :=
  (msgs.filter (fun r => decide (r.handle_name = "ack"))).map Payload.request_id

/-- The ACKs available to a worker within the current tick: the cached ones plus
those still in flight on the stream. -/
def availAcks (st : WorkerRecvState) : List Nat :=
  st.ack_cache ++ streamAckIds st.stream

lemma maybeReceiveOne_queue (st : WorkerRecvState) :
    (maybeReceiveOneRequest st).request_queue = st.request_queue := by
  rcases hstream : st.stream with _ | ⟨r, rest⟩ <;>
    simp only [maybeReceiveOneRequest, hstream]
  by_cases h : r.handle_name = "ack"
  · rw [if_pos h]
  · rw [if_neg h]

lemma maybeReceiveOne_avail (st : WorkerRecvState) :
    ∀ x ∈ availAcks (maybeReceiveOneRequest st), x ∈ availAcks st := by
  intro x hx
  rcases hstream : st.stream with _ | ⟨r, rest⟩
  · simp only [maybeReceiveOneRequest, hstream] at hx
    exact hx
  · simp only [maybeReceiveOneRequest, hstream] at hx
    by_cases h : r.handle_name = "ack"
    · rw [if_pos h] at hx
      simp only [availAcks, streamAckIds, hstream, List.filter_cons, h,
        decide_True, if_true, List.map_cons, List.mem_append, List.mem_cons] at hx ⊢
      tauto
    · rw [if_neg h] at hx
      simp only [availAcks, streamAckIds, hstream, List.filter_cons, h,
        decide_False, if_false, List.mem_append] at hx ⊢
      exact hx

lemma maybeReceiveOne_cache_ext (st : WorkerRecvState) :
    ∃ ext, (maybeReceiveOneRequest st).request_cache = st.request_cache ++ ext := by
  rcases hstream : st.stream with _ | ⟨r, rest⟩ <;>
    simp only [maybeReceiveOneRequest, hstream]
  · exact ⟨[], by simp⟩
  · by_cases h : r.handle_name = "ack"
    · rw [if_pos h]
      exact ⟨[], by simp⟩
    · rw [if_neg h]
      exact ⟨[r], rfl⟩

lemma waitForAckAux_props (ackId : Nat) : ∀ (fuel : Nat) (st : WorkerRecvState),
    ((waitForAckAux ackId fuel st).state.request_queue = st.request_queue) ∧
    (∀ x ∈ availAcks (waitForAckAux ackId fuel st).state, x ∈ availAcks st) ∧
    (∃ ext, (waitForAckAux ackId fuel st).state.request_cache
      = st.request_cache ++ ext) := by
  intro fuel
  induction fuel with
  | zero =>
    intro st
    by_cases h : ackId ∈ st.ack_cache <;>
      simp only [waitForAckAux, h, if_pos, if_neg, if_true, if_false] <;>
      simp [RecvOutcome.state]
  | succ n ih =>
    intro st
    by_cases h : ackId ∈ st.ack_cache
    · simp only [waitForAckAux, if_pos h]
      simp [RecvOutcome.state]
    · simp only [waitForAckAux, if_neg h]
      obtain ⟨hq, hav, hext⟩ := ih (maybeReceiveOneRequest st)
      refine ⟨hq.trans (maybeReceiveOne_queue st),
        fun x hx => maybeReceiveOne_avail st x (hav x hx), ?_⟩
      obtain ⟨ext1, hext1⟩ := hext
      obtain ⟨ext0, hext0⟩ := maybeReceiveOne_cache_ext st
      exact ⟨ext0 ++ ext1, by rw [hext1, hext0, List.append_assoc]⟩

lemma waitForAckAux_done_ack (ackId : Nat) : ∀ (fuel : Nat) (st st' : WorkerRecvState),
    waitForAckAux ackId fuel st = RecvOutcome.done st' → ackId ∈ st'.ack_cache := by
  intro fuel
  induction fuel with
  | zero =>
    intro st st' h
    by_cases hc : ackId ∈ st.ack_cache
    · simp only [waitForAckAux, if_pos hc] at h
      rw [← RecvOutcome.done.inj h]
      exact hc
    · simp only [waitForAckAux, if_neg hc] at h
      exact RecvOutcome.noConfusion h
  | succ n ih =>
    intro st st' h
    by_cases hc : ackId ∈ st.ack_cache
    · simp only [waitForAckAux, if_pos hc] at h
      rw [← RecvOutcome.done.inj h]
      exact hc
    · simp only [waitForAckAux, if_neg hc] at h
      exact ih _ _ h

lemma waitForAckAux_stuck_drained (ackId : Nat) :
    ∀ (fuel : Nat) (st st' : WorkerRecvState), st.stream.length ≤ fuel →
      waitForAckAux ackId fuel st = RecvOutcome.stuck st' →
      ackId ∉ st'.ack_cache ∧ st'.stream = [] := by
  intro fuel
  induction fuel with
  | zero =>
    intro st st' hlen h
    by_cases hc : ackId ∈ st.ack_cache
    · simp only [waitForAckAux, if_pos hc] at h
      exact RecvOutcome.noConfusion h
    · simp only [waitForAckAux, if_neg hc] at h
      rw [← RecvOutcome.stuck.inj h]
      refine ⟨hc, ?_⟩
      rcases hstream : st.stream with _ | ⟨r, rest⟩
      · rfl
      · rw [hstream] at hlen
        simp at hlen
  | succ n ih =>
    intro st st' hlen h
    by_cases hc : ackId ∈ st.ack_cache
    · simp only [waitForAckAux, if_pos hc] at h
      exact RecvOutcome.noConfusion h
    · simp only [waitForAckAux, if_neg hc] at h
      refine ih (maybeReceiveOneRequest st) st' ?_ h
      rcases hstream : st.stream with _ | ⟨r, rest⟩
      · simp [maybeReceiveOneRequest, hstream]
      · rw [hstream] at hlen
        simp only [List.length_cons] at hlen
        have : (maybeReceiveOneRequest st).stream = rest := by
          simp only [maybeReceiveOneRequest, hstream]
          by_cases hk : r.handle_name = "ack"
          · rw [if_pos hk]
          · rw [if_neg hk]
        rw [this]
        omega

lemma pollsFold_props : ∀ (l : List Nat) (st : WorkerRecvState),
    ((l.foldl (fun s _ => maybeReceiveOneRequest s) st).request_queue
      = st.request_queue) ∧
    (∀ x ∈ availAcks (l.foldl (fun s _ => maybeReceiveOneRequest s) st),
      x ∈ availAcks st) := by
  intro l
  induction l with
  | nil => intro st; exact ⟨rfl, fun x hx => hx⟩
  | cons a as ih =>
    intro st
    rw [List.foldl_cons]
    obtain ⟨hq, hav⟩ := ih (maybeReceiveOneRequest st)
    exact ⟨hq.trans (maybeReceiveOne_queue st),
      fun x hx => maybeReceiveOne_avail st x (hav x hx)⟩

lemma promoteLoopAux_props : ∀ (fuel : Nat) (st : WorkerRecvState),
    (∀ r ∈ (promoteLoopAux fuel st).state.request_queue,
      r ∈ st.request_queue ∨ r.ack_reply_id ∈ availAcks st) ∧
    ((promoteLoopAux fuel st).isStuck = true →
      (promoteLoopAux fuel st).state.stream = [] ∧
      (promoteLoopAux fuel st).state.request_cache ≠ [] ∧
      ((promoteLoopAux fuel st).state.request_cache.headD
          ⟨0, "", 0, 0⟩).ack_reply_id ∉ (promoteLoopAux fuel st).state.ack_cache) := by
  intro fuel
  induction fuel with
  | zero =>
    intro st
    exact ⟨fun r hr => Or.inl hr,
      fun h => by simp [promoteLoopAux, RecvOutcome.isStuck] at h⟩
  | succ n ih =>
    intro st
    rcases hcache : st.request_cache with _ | ⟨r, restCache⟩
    · constructor
      · intro r' hr'
        simp only [promoteLoopAux, hcache] at hr'
        exact Or.inl hr'
      · intro h
        simp [promoteLoopAux, hcache, RecvOutcome.isStuck] at h
    · rcases hw : waitForAckAux r.ack_reply_id st.stream.length st with st' | st'
      · have hprops := waitForAckAux_props r.ack_reply_id st.stream.length st
        rw [hw] at hprops
        simp only [RecvOutcome.state] at hprops
        obtain ⟨hq, hav, ext, hext⟩ := hprops
        have hack := waitForAckAux_done_ack r.ack_reply_id st.stream.length st st' hw
        have hred : promoteLoopAux (n + 1) st
            = promoteLoopAux n (promoteState r st') := by
          simp only [promoteLoopAux, hcache, hw]
        rw [hred]
        obtain ⟨ihq, ihs⟩ := ih (promoteState r st')
        refine ⟨?_, ihs⟩
        intro r' hr'
        rcases ihq r' hr' with hmem | hackr
        · simp only [promoteState, List.mem_append, List.mem_singleton] at hmem
          rcases hmem with hmem | rfl
          · rw [hq] at hmem
            exact Or.inl hmem
          · refine Or.inr (hav _ ?_)
            simp only [availAcks, List.mem_append]
            exact Or.inl hack
        · refine Or.inr (hav _ ?_)
          simp only [promoteState, availAcks, List.mem_append] at hackr ⊢
          rcases hackr with hin | hin
          · exact Or.inl (List.erase_subset _ _ hin)
          · exact Or.inr hin
      · have hprops := waitForAckAux_props r.ack_reply_id st.stream.length st
        rw [hw] at hprops
        simp only [RecvOutcome.state] at hprops
        obtain ⟨hq, hav, ext, hext⟩ := hprops
        have hstuck := waitForAckAux_stuck_drained r.ack_reply_id st.stream.length st
          st' (le_refl _) hw
        have hred : promoteLoopAux (n + 1) st = RecvOutcome.stuck st' := by
          simp only [promoteLoopAux, hcache, hw]
        rw [hred]
        constructor
        · intro r' hr'
          simp only [RecvOutcome.state] at hr'
          rw [hq] at hr'
          exact Or.inl hr'
        · intro _
          simp only [RecvOutcome.state]
          refine ⟨hstuck.2, ?_, ?_⟩
          · rw [hext, hcache]
            simp
          · rw [hext, hcache]
            simp only [List.cons_append, List.headD_cons]
            exact hstuck.1

/-- Claim C7 (amended): a model worker promotes a request to its work queue only when
the master's ACK for it is available within the current tick (it was already cached
or arrives on the stream); but a request whose ACK has not yet arrived does not stay
in the request cache to be retried on the next tick — `__maybe_receive_requests`
busy-polls the stream inside the same tick until the ACK arrives, and when the
stream is exhausted without it the tick never completes: the loop spins with the
request still at the head of the request cache and its ACK still missing. -/
theorem worker_ack_handshake (st : WorkerRecvState) (r : Payload)
    (hr : r ∈ (maybeReceiveRequests st).state.request_queue) :
    (r ∈ st.request_queue ∨ r.ack_reply_id ∈ availAcks st) ∧
    ((maybeReceiveRequests st).isStuck = true →
      (maybeReceiveRequests st).state.stream = [] ∧
      (maybeReceiveRequests st).state.request_cache ≠ [] ∧
      ((maybeReceiveRequests st).state.request_cache.headD
          ⟨0, "", 0, 0⟩).ack_reply_id ∉ (maybeReceiveRequests st).state.ack_cache) := by
  obtain ⟨h8q, h8a⟩ := pollsFold_props (List.range 8) st
  unfold maybeReceiveRequests at hr ⊢
  obtain ⟨hq, hs⟩ := promoteLoopAux_props
    (((List.range 8).foldl (fun s _ => maybeReceiveOneRequest s) st).stream.length +
      ((List.range 8).foldl (fun s _ =>
        maybeReceiveOneRequest s) st).request_cache.length + 1)
    ((List.range 8).foldl (fun s _ => maybeReceiveOneRequest s) st)
  refine ⟨?_, hs⟩
  rcases hq r hr with hmem | hack
  · rw [h8q] at hmem
    exact Or.inl hmem
  · exact Or.inr (h8a _ hack)

/-- The tick's incoming master-stream traffic of the claim C7 scenario: a generate
request (ack reply id 200), seven further requests, and then the ACK for the
generate request as the ninth message — beyond the eight bounded polls. -/
def ackWitnessStream : List Payload :=
  [⟨10, "generate", 100, 200⟩,
   ⟨21, "inference", 101, 201⟩, ⟨22, "inference", 102, 202⟩,
   ⟨23, "inference", 103, 203⟩, ⟨24, "inference", 104, 204⟩,
   ⟨25, "inference", 105, 205⟩, ⟨26, "inference", 106, 206⟩,
   ⟨27, "inference", 107, 207⟩,
   ⟨200, "ack", 0, 0⟩]

/-- Counterexample for claim C7 as stated: the generate request's ACK has not
arrived within the eight bounded polls, yet the request does not stay in the request
cache for the next tick — the worker consumes the ninth stream message inside the
same `__maybe_receive_requests` call and promotes the request immediately; the tick
then hangs (stuck) busy-polling for the next cached request's ACK instead of
returning. -/
theorem worker_ack_same_tick_counterexample :
    (maybeReceiveRequests ⟨ackWitnessStream, [], [], [], []⟩).isStuck = true ∧
    (⟨10, "generate", 100, 200⟩ : Payload) ∈
      (maybeReceiveRequests ⟨ackWitnessStream, [], [], [], []⟩).state.request_queue ∧
    (⟨10, "generate", 100, 200⟩ : Payload) ∉
      (maybeReceiveRequests ⟨ackWitnessStream, [], [], [], []⟩).state.request_cache := by
  decide

/-- Witness for claim C7 (amended): in the counterexample scenario the promoted
generate request indeed had its ACK available within the tick, and the stuck state
has a drained stream with an un-ACK-ed request at the head of the cache. -/
theorem worker_ack_handshake_witness :
    ((⟨10, "generate", 100, 200⟩ : Payload) ∈
        (⟨ackWitnessStream, [], [], [], []⟩ : WorkerRecvState).request_queue ∨
      (⟨10, "generate", 100, 200⟩ : Payload).ack_reply_id ∈
        availAcks ⟨ackWitnessStream, [], [], [], []⟩) ∧
    ((maybeReceiveRequests ⟨ackWitnessStream, [], [], [], []⟩).isStuck = true →
      (maybeReceiveRequests ⟨ackWitnessStream, [], [], [], []⟩).state.stream = [] ∧
      (maybeReceiveRequests
          ⟨ackWitnessStream, [], [], [], []⟩).state.request_cache ≠ [] ∧
      ((maybeReceiveRequests
            ⟨ackWitnessStream, [], [], [], []⟩).state.request_cache.headD
          ⟨0, "", 0, 0⟩).ack_reply_id ∉
        (maybeReceiveRequests ⟨ackWitnessStream, [], [], [], []⟩).state.ack_cache) :=
  worker_ack_handshake ⟨ackWitnessStream, [], [], [], []⟩
    ⟨10, "generate", 100, 200⟩ (by decide)
